import Mathlib

/-!
Shallow embedding of the configfs-tsm report subsystem (google/go-configfs-tsm)
and its client layer, used to check the natural-language specification.

Modelling conventions:
* Go `[]byte` values are `List Nat` (byte values; Go guarantees `< 256` but the
  bound is irrelevant to the logic here).
* Go `uint64` counters are `Nat` kept below `2^64` by applying `% 2^64` at every
  mutation, and `x - 1` on `uint64` is `(x + 2^64 - 1) % 2^64`.
* Go `error` results become `Except GoErr` / `Option GoErr` (`none` = nil error).
  A Go nil-pointer dereference (a panic, not an error) is modelled by the
  distinguished outcome `GoErr.nilDeref`, paired with the state at panic time.
* Go maps become association lists; a nil map behaves exactly like an empty map
  for every operation the source performs on one, so both are `[]`.
* Go strings used as paths/attribute names stay `String`; conversions between
  `string` and `[]byte` use `strBytes` (UTF-8 agrees with code points for the
  ASCII literals involved).
* Locks are dropped: the source's lock discipline serialises each operation, so
  the sequential functional semantics is the per-operation behaviour.
-/

set_option autoImplicit false

namespace ConfigfsTsm

/-- The error taxonomy used by the source: sentinel errors from `os`/`syscall`,
the package-level `ErrPrivLevelFormat`, `strconv` parse errors, `fmt.Errorf`
messages (with `ctx` for `fmt.Errorf("...: %v", err)` wrapping; dynamic `%`
interpolation of values other than the wrapped error is not rendered),
`multierr.Combine` of two errors, and the panic marker `nilDeref`. -/
inductive GoErr where
  | errNotExist
  | errExist
  | eBUSY
  | eWOULDBLOCK
  | eINVAL
  | errPrivLevelFormat
  | errSyntax
  | errRange
  | errMsg (s : String)
  | ctx (s : String) (e : GoErr)
  | errPrivBelowFloor (level privlevelFloor : Nat)
  | errGenerationMismatch (got want : Nat)
  | multi (e1 e2 : GoErr)
  | nilDeref
  deriving DecidableEq, Repr

/-- `2^64`, the modulus of Go's `uint64` arithmetic. -/
def U64 : Nat := 2 ^ 64

/-- Go `[]byte(s)` for the ASCII literals appearing in the source. -/
def strBytes (s : String) : List Nat := s.data.map Char.toNat

deriving instance DecidableEq for Except

/-- Decimal digits of a positive number, least significant first, as ASCII
bytes; the first argument is structural fuel (any fuel `≥ n` is enough since
`n / 10 < n` for positive `n`). -/
def decDigitsRevFuel : Nat → Nat → List Nat
  | _, 0 => []
  | 0, _ + 1 => []
  | fuel + 1, n + 1 => (48 + (n + 1) % 10) :: decDigitsRevFuel fuel ((n + 1) / 10)

/-- Decimal digits of a positive number, least significant first. -/
def decDigitsRev (n : Nat) : List Nat := decDigitsRevFuel n n

/-- `strconv.FormatUint(n, 10)` as ASCII bytes. -/
def natToDecBytes (n : Nat) : List Nat :=
  if n = 0 then [48] else (decDigitsRev n).reverse

/-- `fmt.Sprintf("%d", i)` for a Go `int` as ASCII bytes. -/
def intToDecBytes (i : Int) : List Nat :=
  if i < 0 then 45 :: natToDecBytes i.natAbs else natToDecBytes i.toNat

/-- The digit-accumulation loop of `strconv.ParseUint(s, 10, bitSize)`: a
non-digit byte is a syntax error, exceeding `2^bitSize - 1` is a range error. -/
def parseUintLoop (bitSize : Nat) : List Nat → Nat → Except GoErr Nat
  | [], acc => .ok acc
  | c :: rest, acc =>
    if 48 ≤ c ∧ c ≤ 57 then
      if acc * 10 + (c - 48) ≤ 2 ^ bitSize - 1 then parseUintLoop bitSize rest (acc * 10 + (c - 48))
      else .error .errRange
    else .error .errSyntax

/-- `strconv.ParseUint(string(s), 10, bitSize)`. `ParseUint` walks the bytes of
the string, so it acts directly on the byte list; the empty string, any sign,
and any non-digit are syntax errors. -/
def parseUintDec (s : List Nat) (bitSize : Nat) : Except GoErr Nat :=
  if s = [] then .error .errSyntax else parseUintLoop bitSize s 0

/-- `strings.Split(s, "/")` on character lists (accumulator holds the current
component reversed). -/
def splitSlashAux (cur : List Char) : List Char → List (List Char)
  | [] => [cur.reverse]
  | c :: rest => if c = '/' then cur.reverse :: splitSlashAux [] rest else splitSlashAux (c :: cur) rest

/-- The component-stack processing of Go `path.Clean`: empty and `.` components
vanish; `..` pops a component, is dropped at the root when rooted, and is kept
when unrooted with nothing left to pop (`acc` is the output stack, reversed). -/
def cleanComps (rooted : Bool) : List (List Char) → List (List Char) → List (List Char)
  | acc, [] => acc.reverse
  | acc, c :: rest =>
    if c = [] ∨ c = ['.'] then cleanComps rooted acc rest
    else if c = ['.', '.'] then
      match acc with
      | [] => if rooted then cleanComps rooted [] rest else cleanComps rooted [['.', '.']] rest
      | a :: acc2 =>
        if a = ['.', '.'] then cleanComps rooted (['.', '.'] :: a :: acc2) rest
        else cleanComps rooted acc2 rest
    else cleanComps rooted (c :: acc) rest

/-- Join components with `'/'` separators. -/
def joinSlash : List (List Char) → List Char
  | [] => []
  | [c] => c
  | c :: c2 :: rest => c ++ '/' :: joinSlash (c2 :: rest)

/-- Go `path.Clean` on character lists, written as the equivalent
split/process/join form of its lexical algorithm: `""` cleans to `"."`, a
rooted result keeps its leading slash, and an empty unrooted result is `"."`. -/
def goCleanL (p : List Char) : List Char :=
  match p with
  | [] => ['.']
  | c :: rest =>
    if c = '/' then '/' :: joinSlash (cleanComps true [] (splitSlashAux [] (c :: rest)))
    else
      let out := joinSlash (cleanComps false [] (splitSlashAux [] (c :: rest)))
      if out = [] then ['.'] else out

/-- Go `path.Base` on character lists: `""` gives `"."`, trailing slashes are
stripped, the part after the last `'/'` remains, and all-slash gives `"/"`. -/
def goPathBaseL (l : List Char) : List Char :=
  match l with
  | [] => ['.']
  | _ =>
    let l2 := (l.reverse.dropWhile (fun c => c == '/')).reverse
    if l2 = [] then ['/']
    else (l2.reverse.takeWhile (fun c => c != '/')).reverse

/-- Go `path.Dir` on character lists: everything up to and including the final
`'/'` (empty when there is none), cleaned. -/
def goPathDirL (l : List Char) : List Char :=
  goCleanL ((l.reverse.dropWhile (fun c => c != '/')).reverse)

/-- Go `path.Clean` on strings. -/
def goClean (s : String) : String := ⟨goCleanL s.data⟩

/-- Go `path.Dir` on strings. -/
def goPathDir (s : String) : String := ⟨goPathDirL s.data⟩

/-- Go `path.Base` on strings. -/
def goPathBase (s : String) : String := ⟨goPathBaseL s.data⟩

/-- Go `strings.TrimPrefix`. -/
def dropPre (pre s : String) : String :=
  if pre.data.isPrefixOf s.data then ⟨s.data.drop pre.data.length⟩ else s

/-- Go `path.Join`: drop empty elements, join with `'/'`, clean; all-empty
input gives `""`. -/
def goPathJoin (elems : List String) : String :=
  let ne := elems.filter (fun s => s != "")
  if ne = [] then "" else goClean ⟨joinSlash (ne.map String.data)⟩

/-- `configfsi.TsmPrefix`, the root of the configfs tsm tree. -/
def tsmRootPath : String := "/sys/kernel/config/tsm"

/-- `configfsi.TsmPath`: a configfs path decomposed into subsystem, entry and
attribute (field `attr` stands for the source's `Attribute`). -/
structure TsmPath where
  subsystem : String
  entry : String
  attr : String
  deriving DecidableEq, Repr

/-- `TsmPath.String()`: `path.Join(TsmPrefix, p.Subsystem, p.Entry, p.Attribute)`. -/
def TsmPath.pathString (p : TsmPath) : String :=
  goPathJoin [tsmRootPath, p.subsystem, p.entry, p.attr]

/-- `configfsi.ParseTsmPath`. Note the source compares the trimmed clean path
with the original `filepath` argument (not the cleaned one) to detect a missing
tsm-root, and that parse failures carry messages. -/
def parseTsmPath (filepath : String) : Except GoErr TsmPath :=
  let p := goClean filepath
  let rest := dropPre tsmRootPath p
  if rest = filepath then .error (.errMsg "does not begin with the tsm root")
  else
    let rest2 := dropPre ("/") rest
    if rest2 = "" then .error (.errMsg "does not contain a subsystem")
    else
      let dir := goPathDir rest2
      let file := goPathBase rest2
      if dir = "." then .ok ⟨file, "", ""⟩
      else
        let gdir := goPathDir dir
        let mfile := goPathBase dir
        if gdir = "." then .ok ⟨mfile, file, ""⟩
        else
          let ggdir := goPathDir gdir
          let subsystem := goPathBase gdir
          if ggdir ≠ "." then .error (.errMsg "suffix expected to be of form subsystem-entry-attribute")
          else .ok ⟨subsystem, mfile, file⟩

/-- `randomPathSize`: how many random characters replace `*` in a pattern. -/
def randomPathSize : Nat := 6

/-- `configfsi.readableString`'s byte-to-character map: bytes mod 62 mapped to
`[0-9A-Za-z]`. -/
def b2r (b : Nat) : Char :=
  let wrap := b % 62
  if wrap < 10 then Char.ofNat (48 + wrap)
  else if wrap - 10 < 26 then Char.ofNat (65 + (wrap - 10))
  else Char.ofNat (97 + (wrap - 10 - 26))

/-- `configfsi.readableString`: the readable rendering of random bytes. In the
source this helper is defined but never called. -/
def readableString (data : List Nat) : String :=
  ⟨data.map b2r⟩

/-- `strings.LastIndex(pattern, "*")`. -/
def lastStarIdx (l : List Char) : Option Nat :=
  match l.reverse.findIdx? (fun c => c == '*') with
  | none => none
  | some j => some (l.length - 1 - j)

/-- `configfsi.TempName(rand, dir, pattern)`, faithful to the source: it reads
`randomPathSize` bytes from `rand` (modelled as the available byte stream;
a short read returns `"rdfail"`), but its local `randString` is declared with
comment `[a-zA-Z0-9]` and never assigned — `readableString` is never invoked —
so the last `*` of the pattern is replaced by the empty string. `dir` is an
unused parameter in the source. -/
def TempName (rand : List Nat) (dir pattern : String) : String :=
  let randString : String := ""
  if rand.length < randomPathSize then "rdfail"
  else
    match lastStarIdx pattern.data with
    | none => pattern ++ randString
    | some i => ⟨pattern.data.take i ++ randString.data ++ pattern.data.drop (i + 1)⟩

/-- `faketsm.ReportAttributeState`: a writable attribute's value; `readWrite`
marks it also readable. -/
structure ReportAttributeState where
  value : List Nat
  readWrite : Bool
  deriving DecidableEq, Repr

/-- `faketsm.ReportEntry`: one report entry. `inAttrs` maps attribute names to
their (pointed-to) states, `roAttrs` is the output cache populated by
`ReadFile` (Go's nil map behaves as the empty map in every operation, so both
are `[]`; a nil cached slice and an empty one are likewise both `[]`). -/
structure ReportEntry where
  destroyed : Bool
  readGeneration : Nat
  writeGeneration : Nat
  inAttrs : List (String × ReportAttributeState)
  roAttrs : List (String × List Nat)
  deriving DecidableEq, Repr

/-- Association-list lookup, the Go map read `m[k]`. -/
def alookup {α : Type} : List (String × α) → String → Option α
  | [], _ => none
  | (k, v) :: rest, key => if k = key then some v else alookup rest key

/-- Association-list insert-or-update, the Go map write `m[k] = v`. -/
def aset {α : Type} : List (String × α) → String → α → List (String × α)
  | [], key, v => [(key, v)]
  | (k, w) :: rest, key, v => if k = key then (k, v) :: rest else (k, w) :: aset rest key v

/-- Association-list removal, the Go `delete(m, k)`. -/
def aremove {α : Type} : List (String × α) → String → List (String × α)
  | [], _ => []
  | (k, w) :: rest, key => if k = key then rest else (k, w) :: aremove rest key

/-- `ReportEntry.tryAdvanceWriteGeneration`: fails on a destroyed entry, fails
`EBUSY` when `WriteGeneration == ReadGeneration - 1` in `uint64` arithmetic
(`rg - 1` is `(rg + 2^64 - 1) % 2^64`), otherwise increments modulo `2^64`. -/
def ReportEntry.tryAdvanceWriteGeneration (e : ReportEntry) : Except GoErr ReportEntry :=
  if e.destroyed then .error .errNotExist
  else if e.writeGeneration = (e.readGeneration + (U64 - 1)) % U64 then .error .eBUSY
  else .ok { e with writeGeneration := (e.writeGeneration + 1) % U64 }

/-- `ReportEntry.readCached`, the shared-lock fast path of a read: destroyed
entries fail; the pseudo-attribute `"generation"` returns the decimal
`WriteGeneration` before any other check; a generation mismatch signals
`EWOULDBLOCK`; a known input attribute must be marked readable; otherwise the
output cache answers, an empty cached value meaning `return nil, nil`. -/
def ReportEntry.readCached (e : ReportEntry) (attr : String) : Except GoErr (List Nat) :=
  if e.destroyed then .error .errNotExist
  else if attr = "generation" then .ok (natToDecBytes e.writeGeneration)
  else if e.readGeneration ≠ e.writeGeneration then .error .eWOULDBLOCK
  else
    match alookup e.inAttrs attr with
    | some a => if !a.readWrite then .error (.errMsg "is not readable") else .ok a.value
    | none =>
      match alookup e.roAttrs attr with
      | some b => if b.length ≠ 0 then .ok b else .ok []
      | none => .error .errNotExist

/-- `faketsm.ReportSubsystem`: the entry registry with its injected policies
(`CheckInAttr` returning `none` means the nil error, i.e. acceptance) and the
randomness source for `MkdirTemp` modelled as the stream of available bytes. -/
structure ReportSubsystem where
  CheckInAttr : ReportEntry → String → List Nat → Option GoErr
  ReadAttr : ReportEntry → String → Except GoErr (List Nat)
  MakeEntry : Unit → ReportEntry
  Entries : List (String × ReportEntry)
  Random : List Nat

/-- `subsystemName`, the expected subsystem path entry for reports. -/
def subsystemName : String := "report"

/-- `ReportSubsystem.MkdirTemp`: the directory must parse and must not name an
entry; the new name comes from `TempName` (which consumes `randomPathSize`
bytes of randomness); a collision fails with `os.ErrExist`; otherwise a fresh
`MakeEntry()` result is installed and the joined path returned. -/
def ReportSubsystem.MkdirTemp (r : ReportSubsystem) (dir pattern : String) :
    Except GoErr String × ReportSubsystem :=
  match parseTsmPath dir with
  | .error e => (.error (.ctx ("MkdirTemp") e), r)
  | .ok p =>
    if p.entry ≠ "" then (.error (.errMsg "report entry cannot have subdirectories"), r)
    else
      let name := TempName r.Random dir pattern
      let r1 := { r with Random := r.Random.drop randomPathSize }
      match alookup r.Entries name with
      | some _ => (.error .errExist, r1)
      | none =>
        (.ok (goPathJoin [dir, name]), { r1 with Entries := aset r.Entries name (r.MakeEntry ()) })

/-- The fast-path return test of `ReadFile`, literally
`(err == nil && len(b) != 0) || err != syscall.EWOULDBLOCK`; an `.ok` result
always satisfies the second disjunct, so only `EWOULDBLOCK` goes slow. -/
def fastReturnOk : Except GoErr (List Nat) → Bool
  | .ok b => decide (b.length ≠ 0) || true
  | .error err => err ≠ .eWOULDBLOCK

/-- The exclusive-lock slow path of `ReadFile`, after the double-check missed:
the cache slot is set to the pending sentinel (`nil`, here `[]`), the injected
`ReadAttr` policy runs on the entry carrying that sentinel, an error is
propagated wrapped with the sentinel left in place, and a success is stored
and returned. -/
def ReportSubsystem.readSlow (r : ReportSubsystem) (entryName attr : String) (e : ReportEntry) :
    Except GoErr (List Nat) × ReportSubsystem :=
  let e1 := { e with roAttrs := aset e.roAttrs attr [] }
  match r.ReadAttr e1 attr with
  | .error err => (.error (.ctx ("ReadAttr") err), { r with Entries := aset r.Entries entryName e1 })
  | .ok b =>
    let e2 := { e1 with roAttrs := aset e1.roAttrs attr b }
    (.ok b, { r with Entries := aset r.Entries entryName e2 })

/-- `ReportSubsystem.ReadFile`: parse the path, require an attribute, look the
entry up, run the fast path, and return its answer unless it signalled
`EWOULDBLOCK`; then take the exclusive lock, re-check whether the cache was
populated while the generations realigned, and otherwise compute via
`readSlow`. -/
def ReportSubsystem.ReadFile (r : ReportSubsystem) (name : String) :
    Except GoErr (List Nat) × ReportSubsystem :=
  match parseTsmPath name with
  | .error e => (.error (.ctx ("ReadFile") e), r)
  | .ok p =>
    if p.attr = "" then (.error (.errMsg "not an attribute"), r)
    else
      match alookup r.Entries p.entry with
      | none => (.error .errNotExist, r)
      | some e =>
        let fast := e.readCached p.attr
        if fastReturnOk fast then (fast, r)
        else
          match alookup e.roAttrs p.attr with
          | some b =>
            if e.readGeneration = e.writeGeneration then (.ok b, r)
            else r.readSlow p.entry p.attr e
          | none => r.readSlow p.entry p.attr e

/-- `ReportSubsystem.WriteFile`: parse the path, require an attribute, look the
entry up, fail on a destroyed entry, consult the validation policy (its error
is wrapped), advance the write generation, and store the contents. The final
store `e.InAttrs[p.Attribute].Value = contents` dereferences the map entry
without a presence check; when the key is missing the Go program panics on the
nil pointer, after the generation was already advanced. -/
def ReportSubsystem.WriteFile (r : ReportSubsystem) (name : String) (contents : List Nat) :
    Except GoErr Unit × ReportSubsystem :=
  match parseTsmPath name with
  | .error e => (.error (.ctx ("WriteFile") e), r)
  | .ok p =>
    if p.attr = "" then (.error (.errMsg "cannot write to non-attribute"), r)
    else
      match alookup r.Entries p.entry with
      | none => (.error .errNotExist, r)
      | some e =>
        if e.destroyed then (.error .errNotExist, r)
        else
          match r.CheckInAttr e p.attr contents with
          | some err => (.error (.ctx ("could not write") err), r)
          | none =>
            match e.tryAdvanceWriteGeneration with
            | .error err => (.error err, r)
            | .ok e1 =>
              match alookup e1.inAttrs p.attr with
              | none => (.error .nilDeref, { r with Entries := aset r.Entries p.entry e1 })
              | some a =>
                let e2 := { e1 with inAttrs := aset e1.inAttrs p.attr { a with value := contents } }
                (.ok (), { r with Entries := aset r.Entries p.entry e2 })

/-- `ReportSubsystem.RemoveAll`: the path must name exactly an entry of the
report subsystem; a missing entry fails `os.ErrNotExist`; otherwise the entry
is marked destroyed and removed from the registry (once removed, the mark is
invisible to later operations, which all go through the registry). -/
def ReportSubsystem.RemoveAll (r : ReportSubsystem) (name : String) :
    Except GoErr Unit × ReportSubsystem :=
  match parseTsmPath name with
  | .error e => (.error (.ctx ("RemoveAll") e), r)
  | .ok p =>
    if p.attr ≠ "" ∨ p.entry = "" ∨ p.subsystem ≠ subsystemName then
      (.error (.errMsg "expected report subsystem entry path"), r)
    else
      match alookup r.Entries p.entry with
      | none => (.error .errNotExist, r)
      | some _ => (.ok (), { r with Entries := aremove r.Entries p.entry })

/-- `tsmInBlobSize`, the inblob size limit. -/
def tsmInBlobSize : Nat := 64

/-- Range test on a byte, giving `utf8Accept2` and `utf8Valid` boolean guards. -/
def inRange (lo hi b : Nat) : Bool := decide (lo ≤ b ∧ b ≤ hi)

/-- The accepted range of the second byte of a multi-byte UTF-8 sequence, per
Go's `utf8` accept tables (E0 excludes overlongs, ED excludes surrogates, F0
excludes overlongs, F4 caps at U+10FFFF). -/
def utf8Accept2 (b b1 : Nat) : Bool :=
  if b = 0xE0 then inRange 0xA0 0xBF b1
  else if b = 0xED then inRange 0x80 0x9F b1
  else if b = 0xF0 then inRange 0x90 0xBF b1
  else if b = 0xF4 then inRange 0x80 0x8F b1
  else inRange 0x80 0xBF b1

/-- The rune length a UTF-8 lead byte announces, per Go's `utf8` first-byte
table: ASCII is 1, C2–DF is 2, E0–EF is 3, F0–F4 is 4, and 0 marks an invalid
lead byte (80–C1 and F5–FF). -/
def utf8Lead (b : Nat) : Nat :=
  if b < 0x80 then 1
  else if inRange 0xC2 0xDF b then 2
  else if inRange 0xE0 0xEF b then 3
  else if inRange 0xF0 0xF4 b then 4
  else 0

/-- Whether the continuation bytes demanded by lead byte `b` are present and in
range at the head of `rest` (second byte per `utf8Accept2`, later bytes
80–BF). -/
def utf8ContOk (b : Nat) (rest : List Nat) : Bool :=
  match utf8Lead b, rest with
  | 1, _ => true
  | 2, b1 :: _ => inRange 0x80 0xBF b1
  | 3, b1 :: b2 :: _ => utf8Accept2 b b1 && inRange 0x80 0xBF b2
  | 4, b1 :: b2 :: b3 :: _ => utf8Accept2 b b1 && inRange 0x80 0xBF b2 && inRange 0x80 0xBF b3
  | _, _ => false

/-- Rune-by-rune validation; the fuel (at least the list length, since every
rune consumes at least one byte) keeps the recursion structural. -/
def utf8ValidFuel : Nat → List Nat → Bool
  | _, [] => true
  | 0, _ :: _ => false
  | fuel + 1, b :: rest => utf8ContOk b rest && utf8ValidFuel fuel (rest.drop (utf8Lead b - 1))

/-- Go `utf8.Valid`: every rune starts with a valid lead byte followed by its
continuation bytes in the accepted ranges. -/
def utf8Valid (l : List Nat) : Bool := utf8ValidFuel l.length l

/-- `faketsm.checkV7`, the V7 validation policy: an `"inblob"` longer than
`tsmInBlobSize` is `EINVAL`; a `"privlevel"` must be valid UTF-8 and parse as
a decimal `uint` of bit size 2 (0–3) or it is `ErrPrivLevelFormat`, and must
not be below the floor; any other attribute is unwritable. -/
def checkV7 (privlevelFloor : Nat) (e : ReportEntry) (attr : String) (contents : List Nat) :
    Option GoErr :=
  if attr = "inblob" then
    if contents.length > tsmInBlobSize then some .eINVAL else none
  else if attr = "privlevel" then
    if !utf8Valid contents then some .errPrivLevelFormat
    else
      match parseUintDec contents 2 with
      | .error _ => some .errPrivLevelFormat
      | .ok level =>
        if level < privlevelFloor then some (.errPrivBelowFloor level privlevelFloor) else none
  else some (.errMsg "unwritable attribute")

/-- One hex digit in lowercase, as an ASCII byte. -/
def hexDigit (n : Nat) : Nat := if n < 10 then 48 + n else 97 + (n - 10)

/-- `hex.EncodeToString` as ASCII bytes: high then low nibble of each byte
(`b / 16` equals Go's `b >> 4` for byte values; the extra `% 16` only totalises
beyond the byte range). -/
def hexEncode : List Nat → List Nat
  | [] => []
  | b :: rest => hexDigit ((b / 16) % 16) :: hexDigit (b % 16) :: hexEncode rest

/-- `faketsm.readV7`, the V7 computation policy: `"provider"` and `"auxblob"`
are constants; `"outblob"` renders the recorded privlevel (or `<missing>` when
absent or empty) and the hex-encoded inblob, whose map entry is dereferenced
without a presence check (a missing `"inblob"` key panics in Go);
`"privlevel_floor"` renders the floor; anything else is `os.ErrNotExist`. -/
def readV7 (privlevelFloor : Nat) (e : ReportEntry) (attr : String) : Except GoErr (List Nat) :=
  if attr = "provider" then .ok (strBytes ("fake"))
  else if attr = "auxblob" then .ok (strBytes ("auxblob"))
  else if attr = "outblob" then
    let privlevel : List Nat :=
      match alookup e.inAttrs ("privlevel") with
      | some a => if a.value.length > 0 then a.value else strBytes ("<missing>")
      | none => strBytes ("<missing>")
    match alookup e.inAttrs ("inblob") with
    | none => .error .nilDeref
    | some a =>
      .ok (strBytes ("privlevel: ") ++ privlevel ++ strBytes ("\ninblob: ") ++ hexEncode a.value)
  else if attr = "privlevel_floor" then .ok (natToDecBytes privlevelFloor)
  else .error .errNotExist

/-- `faketsm.makeV7`: a fresh entry with `"privlevel"` defaulted to `"0"` and
an empty `"inblob"`; all other fields are Go zero values. -/
def makeV7 (u : Unit) : ReportEntry :=
  { destroyed := false, readGeneration := 0, writeGeneration := 0,
    inAttrs := [("privlevel", { value := strBytes ("0"), readWrite := false }),
                ("inblob", { value := [], readWrite := false })],
    roAttrs := [] }

/-- `faketsm.ReportV7`: the empty V7 report subsystem; `crypto/rand.Reader` is
modelled as the caller-chosen byte stream `rnd`. -/
def ReportV7 (privlevelFloor : Nat) (rnd : List Nat) : ReportSubsystem :=
  { CheckInAttr := checkV7 privlevelFloor, ReadAttr := readV7 privlevelFloor,
    MakeEntry := makeV7, Entries := [], Random := rnd }

/-- The `configfsi.Client` interface consumed by package `report`, as explicit
operations over a client state `σ` (each Go method call both returns a result
and may mutate the client). -/
structure ClientOps (σ : Type) where
  mkdirTemp : σ → String → String → Except GoErr String × σ
  readFile : σ → String → Except GoErr (List Nat) × σ
  writeFile : σ → String → List Nat → Except GoErr Unit × σ
  removeAll : σ → String → Except GoErr Unit × σ

/-- The fake report subsystem as a `configfsi.Client` (package `report` reaches
it through the interface; the faketsm subsystem multiplexer dispatches the
`"report"` subsystem to exactly these four methods). -/
def faketsmOps : ClientOps ReportSubsystem :=
  { mkdirTemp := ReportSubsystem.MkdirTemp, readFile := ReportSubsystem.ReadFile,
    writeFile := ReportSubsystem.WriteFile, removeAll := ReportSubsystem.RemoveAll }

/-- `report.subsystemPath`: `configfsi.TsmPrefix + "/" + subsystem`. -/
def subsystemPath : String := tsmRootPath ++ ("/") ++ subsystemName

/-- `report.Request`: `Privilege` is a nullable pointer to a struct holding an
`int` level, so `Option Int`. -/
structure Request where
  inBlob : List Nat
  privilege : Option Int
  getAuxBlob : Bool

/-- `report.OpenReport`: the client session; `entry` is nullable (`nil` after
`Destroy`), `expectedGeneration` is a `uint64`. The `client` field is passed
as the `ClientOps`/state pair at each call instead. -/
structure OpenReport where
  inBlob : List Nat
  privilege : Option Int
  getAuxBlob : Bool
  entry : Option TsmPath
  expectedGeneration : Nat

/-- `report.Response`. -/
structure Response where
  provider : List Nat
  outBlob : List Nat
  auxBlob : List Nat
  deriving DecidableEq, Repr

/-- `OpenReport.attribute(subtree)`: copy the entry path and set its attribute.
Calling it with a nil `entry` dereferences a nil pointer in Go. -/
def OpenReport.attributePath (r : OpenReport) (subtree : String) : Option String :=
  match r.entry with
  | none => none
  | some pa => some (TsmPath.pathString { pa with attr := subtree })

/-- `report.readUint64File`: read the file and parse it as a decimal `uint64`;
the read error is wrapped, the parse result is returned as-is. -/
def readUint64File {σ : Type} (C : ClientOps σ) (s : σ) (p : String) : Except GoErr Nat × σ :=
  match C.readFile s p with
  | (.error err, s1) => (.error (.ctx ("could not read") err), s1)
  | (.ok data, s1) => (parseUintDec data 64, s1)

/-- `OpenReport.WriteOption`: write through to the store, wrapping a failure;
on success the local `expectedGeneration` is incremented (in `uint64`
arithmetic) without consulting the store. -/
def OpenReport.WriteOption {σ : Type} (C : ClientOps σ) (s : σ) (r : OpenReport)
    (subtree : String) (data : List Nat) : Except GoErr Unit × OpenReport × σ :=
  match r.attributePath subtree with
  | none => (.error .nilDeref, r, s)
  | some p =>
    match C.writeFile s p data with
    | (.error err, s1) => (.error (.ctx ("could not write report") err), r, s1)
    | (.ok _, s1) => (.ok (), { r with expectedGeneration := (r.expectedGeneration + 1) % U64 }, s1)

/-- `OpenReport.ReadOption`: read the attribute, then read `"generation"` and
parse it; a value different from `expectedGeneration` discards the data and
fails with the tamper/race error. -/
def OpenReport.ReadOption {σ : Type} (C : ClientOps σ) (s : σ) (r : OpenReport)
    (subtree : String) : Except GoErr (List Nat) × σ :=
  match r.attributePath subtree with
  | none => (.error .nilDeref, s)
  | some p =>
    match C.readFile s p with
    | (.error err, s1) => (.error (.ctx ("could not read report property") err), s1)
    | (.ok data, s1) =>
      match r.attributePath ("generation") with
      | none => (.error .nilDeref, s1)
      | some gp =>
        match readUint64File C s1 gp with
        | (.error err, s2) => (.error err, s2)
        | (.ok got, s2) =>
          if got ≠ r.expectedGeneration then
            (.error (.errGenerationMismatch got r.expectedGeneration), s2)
          else (.ok data, s2)

/-- `OpenReport.Destroy`: nothing to do when `entry` is already nil; otherwise
remove the subtree and clear `entry`, keeping it on failure. -/
def OpenReport.Destroy {σ : Type} (C : ClientOps σ) (s : σ) (r : OpenReport) :
    Option GoErr × OpenReport × σ :=
  match r.entry with
  | none => (none, r, s)
  | some pa =>
    match C.removeAll s (TsmPath.pathString pa) with
    | (.error err, s1) => (some err, r, s1)
    | (.ok _, s1) => (none, { r with entry := none }, s1)

/-- `multierr.Combine(destroyErr, err)` for the unwind paths, where `err` is
already known non-nil. -/
def combine2 (d : Option GoErr) (e : GoErr) : GoErr :=
  match d with
  | none => e
  | some de => .multi de e

/-- `multierr.Combine` of the two errors of the one-shot `Get`. -/
def combineErr : Option GoErr → Option GoErr → Option GoErr
  | none, e => e
  | some e1, none => some e1
  | some e1, some e2 => some (.multi e1 e2)

/-- `report.CreateOpenReport`: make the entry directory (the pattern is
`uuid.New().String()`, passed here as `u`), re-parse the returned path with the
error ignored (`p, _ :=` — a failed parse leaves `p` nil and `p.Entry` panics),
seed `expectedGeneration` from the `"generation"` attribute, and on a failed
seed destroy best-effort and surface both errors combined. -/
def CreateOpenReport {σ : Type} (C : ClientOps σ) (s : σ) (u : String) :
    Except GoErr OpenReport × σ :=
  match C.mkdirTemp s subsystemPath u with
  | (.error err, s1) => (.error (.ctx ("could not create report entry in configfs") err), s1)
  | (.ok entryPath, s1) =>
    match parseTsmPath entryPath with
    | .error _ => (.error .nilDeref, s1)
    | .ok p =>
      let r : OpenReport := { inBlob := [], privilege := none, getAuxBlob := false,
                              entry := some ⟨subsystemName, p.entry, ""⟩,
                              expectedGeneration := 0 }
      match r.attributePath ("generation") with
      | none => (.error .nilDeref, s1)
      | some gp =>
        match readUint64File C s1 gp with
        | (.error err, s2) =>
          match OpenReport.Destroy C s2 r with
          | (derr, _, s3) => (.error (combine2 derr err), s3)
        | (.ok g, s2) => (.ok { r with expectedGeneration := g }, s2)

/-- `report.Create`: `CreateOpenReport` plus the request's common inputs. -/
def Create {σ : Type} (C : ClientOps σ) (s : σ) (u : String) (req : Request) :
    Except GoErr OpenReport × σ :=
  match CreateOpenReport C s u with
  | (.error err, s1) => (.error err, s1)
  | (.ok r, s1) =>
    (.ok { r with inBlob := req.inBlob, privilege := req.privilege, getAuxBlob := req.getAuxBlob },
     s1)

/-- `OpenReport.Get`: write the inblob, optionally write the privilege level,
optionally read `"auxblob"`, read `"outblob"`, read `"provider"`; the first
failure aborts with that (contextualised) error. -/
def OpenReport.Get {σ : Type} (C : ClientOps σ) (s : σ) (r : OpenReport) :
    Except GoErr Response × OpenReport × σ :=
  match OpenReport.WriteOption C s r ("inblob") r.inBlob with
  | (.error err, r1, s1) => (.error err, r1, s1)
  | (.ok _, r1, s1) =>
    match (match r1.privilege with
           | none => (Except.ok (), r1, s1)
           | some lv => OpenReport.WriteOption C s1 r1 ("privlevel") (intToDecBytes lv)) with
    | (.error err, r2, s2) => (.error err, r2, s2)
    | (.ok _, r2, s2) =>
      match (if r2.getAuxBlob then
               match OpenReport.ReadOption C s2 r2 ("auxblob") with
               | (.error err, s3) => (.error (.ctx ("could not read report auxblob") err), s3)
               | (.ok b, s3) => (.ok b, s3)
             else (Except.ok [], s2)) with
      | (.error err, s3) => (.error err, r2, s3)
      | (.ok aux, s3) =>
        match OpenReport.ReadOption C s3 r2 ("outblob") with
        | (.error err, s4) => (.error (.ctx ("could not read report outblob") err), r2, s4)
        | (.ok ob, s4) =>
          match OpenReport.ReadOption C s4 r2 ("provider") with
          | (.error err, s5) => (.error err, r2, s5)
          | (.ok pv, s5) => (.ok { provider := pv, outBlob := ob, auxBlob := aux }, r2, s5)

/-- Package-level `report.Get`, the one-shot operation: create, run the
session's `Get`, then unconditionally destroy, combining the destruction error
with the operation's. -/
def Get {σ : Type} (C : ClientOps σ) (s : σ) (u : String) (req : Request) :
    Option Response × Option GoErr × σ :=
  match Create C s u req with
  | (.error err, s1) => (none, some err, s1)
  | (.ok r, s1) =>
    match OpenReport.Get C s1 r with
    | (res, r2, s2) =>
      match OpenReport.Destroy C s2 r2 with
      | (derr, _, s3) =>
        match res with
        | .error err => (none, combineErr derr (some err), s3)
        | .ok resp => (some resp, combineErr derr none, s3)

/-- An operation addressed to the fake subsystem, for stating trace properties:
a `WriteFile` with its contents or a `ReadFile`. -/
inductive FsOp where
  | write (name : String) (contents : List Nat)
  | read (name : String)

/-- Run one operation for its state effect. -/
def applyOp (r : ReportSubsystem) : FsOp → ReportSubsystem
  | .write n c => (r.WriteFile n c).2
  | .read n => (r.ReadFile n).2

/-- Whether an operation is a `WriteFile` that returns success and whose path
parses to the entry named `n0`. -/
def isOkWriteTo (n0 : String) (r : ReportSubsystem) : FsOp → Bool
  | .write n c =>
    match parseTsmPath n, (r.WriteFile n c).1 with
    | .ok p, .ok _ => p.entry == n0
    | _, _ => false
  | .read _ => false

/-- Run a trace of operations, counting the successful writes addressed to the
entry named `n0`. -/
def runCount (n0 : String) : ReportSubsystem → List FsOp → ReportSubsystem × Nat
  | r, [] => (r, 0)
  | r, op :: rest =>
    let k := runCount n0 (applyOp r op) rest
    (k.1, (if isOkWriteTo n0 r op then 1 else 0) + k.2)

/-- A string usable as a single path segment for an entry name: nonempty, not
a dot-component, and free of `'/'` and of the `TempName` placeholder `'*'`.
Every `uuid.New().String()` value satisfies this (36 characters over
`[0-9a-f-]`). -/
def validSeg (s : String) : Bool :=
  s.data.all (fun c => c != '/' && c != '*') && s != "" && s != "." && s != ".."

/-- The entry-shape invariant behind the unguarded map dereference in
`WriteFile`: both V7-writable attributes are mapped, as `makeV7` establishes. -/
def hasV7Keys (e : ReportEntry) : Prop :=
  (alookup e.inAttrs ("inblob")).isSome ∧ (alookup e.inAttrs ("privlevel")).isSome

/-- The state invariant of one entry along a write/read trace: present, not
destroyed, read generation still 0 (nothing in the package ever advances it),
write generation in `uint64` range, and the V7 keys mapped. -/
def entryTraceInv (n0 : String) (r : ReportSubsystem) (w : Nat) : Prop :=
  ∃ e, alookup r.Entries n0 = some e ∧ e.writeGeneration = w ∧ e.readGeneration = 0 ∧
    e.destroyed = false ∧ w < U64 ∧ hasV7Keys e

/-! Helper lemmas on the association-list operations. -/

theorem alookup_aset_self {α : Type} (l : List (String × α)) (k : String) (v : α) :
    alookup (aset l k v) k = some v := by
  induction l with
  | nil => simp [aset, alookup]
  | cons h t ih =>
    obtain ⟨k1, v1⟩ := h
    by_cases hk : k1 = k
    · subst hk
      simp [aset, alookup]
    · simp [aset, alookup, hk, ih]

theorem alookup_aset_ne {α : Type} (l : List (String × α)) (k k2 : String) (v : α)
    (h : k ≠ k2) : alookup (aset l k v) k2 = alookup l k2 := by
  induction l with
  | nil => simp [aset, alookup, h]
  | cons hd t ih =>
    obtain ⟨k1, v1⟩ := hd
    by_cases hk : k1 = k
    · subst hk
      simp [aset, alookup, h]
    · simp [aset, alookup, hk, ih]

theorem alookup_aset_isSome {α : Type} (l : List (String × α)) (k k2 : String) (v : α)
    (h : (alookup l k2).isSome) : (alookup (aset l k v) k2).isSome := by
  by_cases hk : k = k2
  · subst hk
    simp [alookup_aset_self]
  · rw [alookup_aset_ne l k k2 v hk]
    exact h

/-! Helper lemmas about decimal rendering and parsing. -/

theorem decDigitsRevFuel_mono (fuel fuel2 n : Nat) (h : n ≤ fuel) (h2 : n ≤ fuel2) :
    decDigitsRevFuel fuel n = decDigitsRevFuel fuel2 n := by
  induction fuel generalizing fuel2 n with
  | zero =>
    interval_cases n
    cases fuel2 <;> simp [decDigitsRevFuel]
  | succ f ih =>
    cases n with
    | zero => cases fuel2 <;> simp [decDigitsRevFuel]
    | succ m =>
      cases fuel2 with
      | zero => omega
      | succ f2 =>
        have hd : (m + 1) / 10 < m + 1 := Nat.div_lt_self (Nat.succ_pos m) (by decide)
        simp only [decDigitsRevFuel]
        rw [ih f2 ((m + 1) / 10) (by omega) (by omega)]

theorem decDigitsRev_succ (n : Nat) :
    decDigitsRev (n + 1) = (48 + (n + 1) % 10) :: decDigitsRev ((n + 1) / 10) := by
  have hd : (n + 1) / 10 < n + 1 := Nat.div_lt_self (Nat.succ_pos n) (by decide)
  simp only [decDigitsRev, decDigitsRevFuel]
  rw [decDigitsRevFuel_mono n ((n + 1) / 10) ((n + 1) / 10) (by omega) (le_refl _)]

theorem decDigitsRev_digits (n : Nat) : ∀ c ∈ decDigitsRev n, 48 ≤ c ∧ c ≤ 57 := by
  induction n using Nat.strong_induction_on with
  | _ n ih =>
    cases n with
    | zero =>
      intro c hc
      simp [decDigitsRev, decDigitsRevFuel] at hc
    | succ m =>
      rw [decDigitsRev_succ]
      intro c hc
      rcases List.mem_cons.mp hc with h | h
      · subst h
        have : (m + 1) % 10 < 10 := Nat.mod_lt _ (by decide)
        omega
      · exact ih ((m + 1) / 10) (Nat.div_lt_self (Nat.succ_pos m) (by decide)) c h

theorem natToDecBytes_digits (n : Nat) : ∀ c ∈ natToDecBytes n, 48 ≤ c ∧ c ≤ 57 := by
  intro c hc
  unfold natToDecBytes at hc
  by_cases h : n = 0
  · simp [h] at hc
    omega
  · rw [if_neg h, List.mem_reverse] at hc
    exact decDigitsRev_digits n c hc

theorem natToDecBytes_ne_nil (n : Nat) : natToDecBytes n ≠ [] := by
  unfold natToDecBytes
  by_cases h : n = 0
  · simp [h]
  · rw [if_neg h]
    cases n with
    | zero => exact absurd rfl h
    | succ m =>
      rw [decDigitsRev_succ]
      simp

theorem decValue_rev (n : Nat) : ∀ acc : Nat,
    ((decDigitsRev n).reverse).foldl (fun a c => a * 10 + (c - 48)) acc =
      acc * 10 ^ (decDigitsRev n).length + n := by
  induction n using Nat.strong_induction_on with
  | _ n ih =>
    intro acc
    cases n with
    | zero => simp [decDigitsRev, decDigitsRevFuel]
    | succ m =>
      rw [decDigitsRev_succ]
      simp only [List.reverse_cons, List.foldl_append, List.foldl_cons, List.foldl_nil,
        List.length_cons]
      rw [ih ((m + 1) / 10) (Nat.div_lt_self (Nat.succ_pos m) (by decide)) acc]
      have h48 : 48 + (m + 1) % 10 - 48 = (m + 1) % 10 := by omega
      rw [h48, pow_succ]
      have := Nat.div_add_mod (m + 1) 10
      ring_nf
      omega

theorem foldl_dec_ge (l : List Nat) (acc : Nat) :
    acc ≤ l.foldl (fun a c => a * 10 + (c - 48)) acc := by
  induction l generalizing acc with
  | nil => simp
  | cons c t ih =>
    simp only [List.foldl_cons]
    exact le_trans (by omega) (ih (acc * 10 + (c - 48)))

theorem parseUintLoop_digits (b : Nat) (l : List Nat) : ∀ acc : Nat,
    (∀ c ∈ l, 48 ≤ c ∧ c ≤ 57) →
    l.foldl (fun a c => a * 10 + (c - 48)) acc ≤ 2 ^ b - 1 →
    parseUintLoop b l acc = .ok (l.foldl (fun a c => a * 10 + (c - 48)) acc) := by
  induction l with
  | nil => intro acc _ _; simp [parseUintLoop]
  | cons c t ih =>
    intro acc hdig hle
    simp only [List.foldl_cons] at hle
    have hc := hdig c (List.mem_cons_self c t)
    have hstep : acc * 10 + (c - 48) ≤ 2 ^ b - 1 :=
      le_trans (foldl_dec_ge t (acc * 10 + (c - 48))) hle
    simp only [parseUintLoop, if_pos hc, if_pos hstep, List.foldl_cons]
    exact ih (acc * 10 + (c - 48)) (fun x hx => hdig x (List.mem_cons_of_mem c hx)) hle

theorem decValue_zero (n : Nat) :
    ((decDigitsRev n).reverse).foldl (fun a c => a * 10 + (c - 48)) 0 = n := by
  rw [decValue_rev n 0]
  simp

theorem parseUintDec_natToDecBytes (n : Nat) (h : n < U64) :
    parseUintDec (natToDecBytes n) 64 = .ok n := by
  unfold parseUintDec
  rw [if_neg (natToDecBytes_ne_nil n)]
  by_cases h0 : n = 0
  · subst h0
    decide
  · unfold natToDecBytes
    rw [if_neg h0]
    rw [parseUintLoop_digits 64 (decDigitsRev n).reverse 0
      (fun c hc => decDigitsRev_digits n c (List.mem_reverse.mp hc))
      (by rw [decValue_zero]; unfold U64 at h; omega)]
    rw [decValue_zero]

/-! Path-model lemmas for a symbolic, slash-free path segment. -/

theorem str_append_empty (s : String) : s ++ ("") = s := by
  cases s with
  | mk d => show String.mk (d ++ []) = String.mk d; rw [List.append_nil]

theorem str_data_append (a b : String) : (a ++ b).data = a.data ++ b.data := rfl

theorem validSeg_parts (u : String) (h : validSeg u = true) :
    (∀ c ∈ u.data, c ≠ '/') ∧ (∀ c ∈ u.data, c ≠ '*') ∧
      u.data ≠ [] ∧ u.data ≠ ['.'] ∧ u.data ≠ ['.', '.'] := by
  unfold validSeg at h
  simp only [Bool.and_eq_true, List.all_eq_true, bne_iff_ne, ne_eq] at h
  obtain ⟨⟨⟨hall, h1⟩, h2⟩, h3⟩ := h
  refine ⟨fun c hc => (hall c hc).1, fun c hc => (hall c hc).2, ?_, ?_, ?_⟩
  · intro hx
    exact h1 (by cases u with | mk d => simp only at hx; rw [hx])
  · intro hx
    exact h2 (by cases u with | mk d => simp only at hx; rw [hx])
  · intro hx
    exact h3 (by cases u with | mk d => simp only at hx; rw [hx])

theorem splitSlashAux_noslash (l : List Char) : ∀ cur : List Char, (∀ c ∈ l, c ≠ '/') →
    splitSlashAux cur l = [cur.reverse ++ l] := by
  induction l with
  | nil => intro cur _; simp [splitSlashAux]
  | cons c t ih =>
    intro cur h
    have hc : c ≠ '/' := h c (List.mem_cons_self c t)
    simp only [splitSlashAux, if_neg hc]
    rw [ih (c :: cur) (fun x hx => h x (List.mem_cons_of_mem c hx))]
    simp

theorem splitSlashAux_seg_slash (l rest : List Char) : ∀ cur : List Char,
    (∀ c ∈ l, c ≠ '/') →
    splitSlashAux cur (l ++ '/' :: rest) = (cur.reverse ++ l) :: splitSlashAux [] rest := by
  induction l with
  | nil => intro cur _; simp [splitSlashAux]
  | cons c t ih =>
    intro cur h
    have hc : c ≠ '/' := h c (List.mem_cons_self c t)
    simp only [List.cons_append, splitSlashAux, if_neg hc, List.append_eq]
    rw [ih (c :: cur) (fun x hx => h x (List.mem_cons_of_mem c hx))]
    simp

theorem cleanComps_push (ro : Bool) (acc rest : List (List Char)) (c : List Char)
    (h1 : c ≠ []) (h2 : c ≠ ['.']) (h3 : c ≠ ['.', '.']) :
    cleanComps ro acc (c :: rest) = cleanComps ro (c :: acc) rest := by
  simp [cleanComps, h1, h2, h3]

theorem dropWhile_append_all (p : Char → Bool) (l1 l2 : List Char)
    (h : ∀ c ∈ l1, p c = true) :
    List.dropWhile p (l1 ++ l2) = List.dropWhile p l2 := by
  induction l1 with
  | nil => simp
  | cons c t ih =>
    simp only [List.cons_append, List.dropWhile_cons, h c (List.mem_cons_self c t), if_true]
    exact ih (fun x hx => h x (List.mem_cons_of_mem c hx))

theorem takeWhile_append_stop (p : Char → Bool) (l1 l2 : List Char) (c : Char)
    (h : ∀ x ∈ l1, p x = true) (hc : p c = false) :
    List.takeWhile p (l1 ++ c :: l2) = l1 := by
  induction l1 with
  | nil => simp [List.takeWhile_cons, hc]
  | cons d t ih =>
    simp only [List.cons_append, List.takeWhile_cons, h d (List.mem_cons_self d t), if_true]
    rw [ih (fun x hx => h x (List.mem_cons_of_mem d hx))]

theorem dropWhile_stop (p : Char → Bool) (c : Char) (l : List Char) (hc : p c = false) :
    List.dropWhile p (c :: l) = c :: l := by
  simp [List.dropWhile_cons, hc]

theorem splitSlash_reportPre (l : List Char) :
    splitSlashAux [] ("/sys/kernel/config/tsm/report/".data ++ l) =
      [[], "sys".data, "kernel".data, "config".data, "tsm".data, "report".data] ++
        splitSlashAux [] l := rfl

theorem cleanComps_reportPre (rest : List (List Char)) :
    cleanComps true []
      ([[], "sys".data, "kernel".data, "config".data, "tsm".data, "report".data] ++ rest) =
      cleanComps true
        ["report".data, "tsm".data, "config".data, "kernel".data, "sys".data] rest := rfl

theorem joinSlash_reportPre (x : List Char) :
    joinSlash ["sys".data, "kernel".data, "config".data, "tsm".data, "report".data, x] =
      "sys/kernel/config/tsm/report/".data ++ x := rfl

theorem joinSlash_reportPre2 (x y : List Char) :
    joinSlash ["sys".data, "kernel".data, "config".data, "tsm".data, "report".data, x, y] =
      "sys/kernel/config/tsm/report/".data ++ x ++ '/' :: y := by
  show "sys".data ++ '/' :: joinSlash ["kernel".data, "config".data, "tsm".data, "report".data, x, y] = _
  simp only [joinSlash]
  rfl

/-- `path.Clean` is the identity on `/sys/kernel/config/tsm/report/<seg>`. -/
theorem goCleanL_report_seg (x : List Char) (hx1 : ∀ c ∈ x, c ≠ '/')
    (hx2 : x ≠ []) (hx3 : x ≠ ['.']) (hx4 : x ≠ ['.', '.']) :
    goCleanL ("/sys/kernel/config/tsm/report/".data ++ x) =
      "/sys/kernel/config/tsm/report/".data ++ x := by
  show goCleanL ('/' :: ("sys/kernel/config/tsm/report/".data ++ x)) = _
  simp only [goCleanL, if_pos rfl]
  rw [show ('/' :: ("sys/kernel/config/tsm/report/".data ++ x)) =
    "/sys/kernel/config/tsm/report/".data ++ x from rfl]
  rw [splitSlash_reportPre, splitSlashAux_noslash x [] hx1, cleanComps_reportPre]
  simp only [List.reverse_nil, List.nil_append, if_true]
  rw [cleanComps_push true _ [] x hx2 hx3 hx4]
  rw [show cleanComps true
    (x :: ["report".data, "tsm".data, "config".data, "kernel".data, "sys".data]) [] =
    ["sys".data, "kernel".data, "config".data, "tsm".data, "report".data, x] from by
      simp [cleanComps]]
  rw [joinSlash_reportPre]
  rfl

/-- `path.Clean` is the identity on `/sys/kernel/config/tsm/report/<seg>/<seg>`. -/
theorem goCleanL_report_seg2 (x y : List Char) (hx1 : ∀ c ∈ x, c ≠ '/')
    (hx2 : x ≠ []) (hx3 : x ≠ ['.']) (hx4 : x ≠ ['.', '.'])
    (hy1 : ∀ c ∈ y, c ≠ '/') (hy2 : y ≠ []) (hy3 : y ≠ ['.']) (hy4 : y ≠ ['.', '.']) :
    goCleanL ("/sys/kernel/config/tsm/report/".data ++ x ++ '/' :: y) =
      "/sys/kernel/config/tsm/report/".data ++ x ++ '/' :: y := by
  rw [List.append_assoc]
  show goCleanL ('/' :: ("sys/kernel/config/tsm/report/".data ++ (x ++ '/' :: y))) = _
  simp only [goCleanL, if_pos rfl]
  rw [show ('/' :: ("sys/kernel/config/tsm/report/".data ++ (x ++ '/' :: y))) =
    "/sys/kernel/config/tsm/report/".data ++ (x ++ '/' :: y) from rfl]
  rw [splitSlash_reportPre, splitSlashAux_seg_slash x y [] hx1,
    splitSlashAux_noslash y [] hy1, cleanComps_reportPre]
  simp only [List.reverse_nil, List.nil_append, if_true]
  rw [cleanComps_push true _ _ x hx2 hx3 hx4]
  rw [cleanComps_push true _ [] y hy2 hy3 hy4]
  rw [show cleanComps true
    (y :: x :: ["report".data, "tsm".data, "config".data, "kernel".data, "sys".data]) [] =
    ["sys".data, "kernel".data, "config".data, "tsm".data, "report".data, x, y] from by
      simp [cleanComps]]
  rw [joinSlash_reportPre2]
  rfl

/-- `path.Clean` sends `report/<seg>/` to `report/<seg>`. -/
theorem goCleanL_reportRel_slash (x : List Char) (hx1 : ∀ c ∈ x, c ≠ '/')
    (hx2 : x ≠ []) (hx3 : x ≠ ['.']) (hx4 : x ≠ ['.', '.']) :
    goCleanL ("report/".data ++ x ++ ['/']) = "report/".data ++ x := by
  show goCleanL ('r' :: ("eport/".data ++ x ++ ['/'])) = _
  simp only [goCleanL, if_neg (by decide : ¬ ('r' = '/'))]
  rw [show ('r' :: ("eport/".data ++ x ++ ['/'])) =
    "report".data ++ '/' :: (x ++ '/' :: ([] : List Char)) from by simp]
  rw [splitSlashAux_seg_slash ("report".data) (x ++ '/' :: []) []
    (by decide : ∀ c ∈ "report".data, c ≠ '/')]
  rw [splitSlashAux_seg_slash x [] [] hx1]
  simp only [List.reverse_nil, List.nil_append]
  rw [show splitSlashAux ([] : List Char) ([] : List Char) = [[]] from rfl]
  rw [cleanComps_push false [] _ ("report".data) (by decide) (by decide) (by decide)]
  rw [cleanComps_push false _ _ x hx2 hx3 hx4]
  rw [show cleanComps false (x :: ["report".data]) [[]] = ["report".data, x] from by
    simp [cleanComps]]
  rw [show joinSlash ["report".data, x] = "report".data ++ '/' :: x from rfl]
  rw [if_neg (by simp)]
  rfl

theorem str_mk_data (s : String) : (⟨s.data⟩ : String) = s := by
  cases s with
  | mk d => rfl

theorem bne_slash_of_ne (c : Char) (h : c ≠ '/') : (c != '/') = true := by
  simp [bne_iff_ne, h]

/-- `path.Dir` of `report/<seg>` is `report`. -/
theorem goPathDirL_reportRel (x : List Char) (hx1 : ∀ c ∈ x, c ≠ '/') :
    goPathDirL ("report/".data ++ x) = "report".data := by
  unfold goPathDirL
  rw [List.reverse_append]
  rw [show ("report/".data.reverse) = '/' :: "troper".data from rfl]
  rw [dropWhile_append_all _ x.reverse _
    (fun c hc => bne_slash_of_ne c (hx1 c (List.mem_reverse.mp hc)))]
  rw [dropWhile_stop _ '/' _ (by decide)]
  rw [show ('/' :: "troper".data).reverse = "report/".data from rfl]
  decide

/-- `path.Dir` of `report/<seg>/<seg>` is `report/<seg>`. -/
theorem goPathDirL_reportRel2 (x y : List Char) (hx1 : ∀ c ∈ x, c ≠ '/')
    (hx2 : x ≠ []) (hx3 : x ≠ ['.']) (hx4 : x ≠ ['.', '.'])
    (hy1 : ∀ c ∈ y, c ≠ '/') :
    goPathDirL ("report/".data ++ x ++ '/' :: y) = "report/".data ++ x := by
  unfold goPathDirL
  rw [show ("report/".data ++ x ++ '/' :: y).reverse =
    y.reverse ++ '/' :: (x.reverse ++ "/troper".data) from by
      simp [List.reverse_append]]
  rw [dropWhile_append_all _ y.reverse _
    (fun c hc => bne_slash_of_ne c (hy1 c (List.mem_reverse.mp hc)))]
  rw [dropWhile_stop _ '/' _ (by decide)]
  rw [show ('/' :: (x.reverse ++ "/troper".data)).reverse =
    ("report/".data ++ x) ++ ['/'] from by simp [List.reverse_append]]
  exact goCleanL_reportRel_slash x hx1 hx2 hx3 hx4

/-- `path.Base` of `report/<seg>` is the segment. -/
theorem goPathBaseL_reportRel (x : List Char) (hx1 : ∀ c ∈ x, c ≠ '/') (hx2 : x ≠ []) :
    goPathBaseL ("report/".data ++ x) = x := by
  cases hxr : x.reverse with
  | nil => exact absurd (by simpa using congrArg List.reverse hxr) hx2
  | cons c t =>
    have hc : c ≠ '/' := hx1 c (List.mem_reverse.mp (hxr ▸ List.mem_cons_self c t))
    have hdrop : List.dropWhile (fun z => z == '/') (x.reverse ++ "/troper".data) =
        x.reverse ++ "/troper".data := by
      rw [hxr]
      simp only [List.cons_append]
      exact dropWhile_stop _ c _ (by simp [hc])
    unfold goPathBaseL
    rw [show ("report/".data ++ x) = 'r' :: ("eport/".data ++ x) from by simp]
    simp only
    rw [show ('r' :: ("eport/".data ++ x)).reverse = x.reverse ++ "/troper".data from by
      simp [List.reverse_append]]
    rw [hdrop]
    rw [show (x.reverse ++ "/troper".data).reverse = "report/".data ++ x from by
      simp [List.reverse_append]]
    rw [if_neg (by simp)]
    rw [show ("report/".data ++ x).reverse = x.reverse ++ '/' :: "troper".data from by
      simp [List.reverse_append]]
    rw [takeWhile_append_stop _ x.reverse _ '/'
      (fun z hz => bne_slash_of_ne z (hx1 z (List.mem_reverse.mp hz))) (by decide)]
    rw [List.reverse_reverse]

/-- `path.Base` of `report/<seg>/<seg>` is the last segment. -/
theorem goPathBaseL_reportRel2 (x y : List Char) (hy1 : ∀ c ∈ y, c ≠ '/') (hy2 : y ≠ []) :
    goPathBaseL ("report/".data ++ x ++ '/' :: y) = y := by
  cases hyr : y.reverse with
  | nil => exact absurd (by simpa using congrArg List.reverse hyr) hy2
  | cons c t =>
    have hc : c ≠ '/' := hy1 c (List.mem_reverse.mp (hyr ▸ List.mem_cons_self c t))
    have hdrop : List.dropWhile (fun z => z == '/')
        (y.reverse ++ '/' :: (x.reverse ++ "/troper".data)) =
        y.reverse ++ '/' :: (x.reverse ++ "/troper".data) := by
      rw [hyr]
      simp only [List.cons_append]
      exact dropWhile_stop _ c _ (by simp [hc])
    unfold goPathBaseL
    rw [show ("report/".data ++ x ++ '/' :: y) = 'r' :: ("eport/".data ++ x ++ '/' :: y) from by
      simp]
    simp only
    rw [show ('r' :: ("eport/".data ++ x ++ '/' :: y)).reverse =
      y.reverse ++ '/' :: (x.reverse ++ "/troper".data) from by simp [List.reverse_append]]
    rw [hdrop]
    rw [show (y.reverse ++ '/' :: (x.reverse ++ "/troper".data)).reverse =
      (("report/".data ++ x) ++ ['/']) ++ y from by simp [List.reverse_append]]
    rw [if_neg (by simp)]
    rw [show ((("report/".data ++ x) ++ ['/']) ++ y).reverse =
      y.reverse ++ '/' :: (x.reverse ++ "/troper".data) from by simp [List.reverse_append]]
    rw [takeWhile_append_stop _ y.reverse _ '/'
      (fun z hz => bne_slash_of_ne z (hy1 z (List.mem_reverse.mp hz))) (by decide)]
    rw [List.reverse_reverse]

/-- `ParseTsmPath` on `/sys/kernel/config/tsm/report/<entry>` for a valid
entry segment. -/
theorem parse_report_entry (u : String) (hu : validSeg u = true) :
    parseTsmPath ⟨"/sys/kernel/config/tsm/report/".data ++ u.data⟩ =
      .ok ⟨"report", u, ""⟩ := by
  obtain ⟨h1, _, h3, h4, h5⟩ := validSeg_parts u hu
  unfold parseTsmPath
  dsimp only
  rw [show goClean ⟨"/sys/kernel/config/tsm/report/".data ++ u.data⟩ =
    ⟨"/sys/kernel/config/tsm/report/".data ++ u.data⟩ from
      congrArg String.mk (goCleanL_report_seg u.data h1 h3 h4 h5)]
  rw [show dropPre tsmRootPath ⟨"/sys/kernel/config/tsm/report/".data ++ u.data⟩ =
    ⟨"/report/".data ++ u.data⟩ from rfl]
  rw [if_neg (by
    intro h
    have h2 := congrArg (fun s => s.data.take 2) h
    exact absurd (show (['/', 'r'] : List Char) = ['/', 's'] from h2) (by decide))]
  rw [show dropPre ("/") ⟨"/report/".data ++ u.data⟩ = ⟨"report/".data ++ u.data⟩ from rfl]
  rw [if_neg (by
    intro h
    exact absurd (show (['r'] : List Char) = [] from congrArg (fun s => s.data.take 1) h)
      (by decide))]
  rw [show goPathDir ⟨"report/".data ++ u.data⟩ = "report" from
    congrArg String.mk (goPathDirL_reportRel u.data h1)]
  rw [show goPathBase ⟨"report/".data ++ u.data⟩ = u from by
    rw [show goPathBase ⟨"report/".data ++ u.data⟩ =
      ⟨goPathBaseL ("report/".data ++ u.data)⟩ from rfl]
    rw [goPathBaseL_reportRel u.data h1 h3]]
  rw [if_neg (by decide : ¬ ("report" : String) = ".")]
  rw [show goPathDir ("report") = "." from by decide]
  rw [if_pos rfl]
  rw [show goPathBase ("report") = "report" from by decide]

/-- `ParseTsmPath` on `/sys/kernel/config/tsm/report/<entry>/<attr>` for valid
entry and attribute segments. -/
theorem parse_report_attr (u a : String) (hu : validSeg u = true) (ha : validSeg a = true) :
    parseTsmPath ⟨"/sys/kernel/config/tsm/report/".data ++ u.data ++ '/' :: a.data⟩ =
      .ok ⟨"report", u, a⟩ := by
  obtain ⟨hu1, _, hu3, hu4, hu5⟩ := validSeg_parts u hu
  obtain ⟨ha1, _, ha3, ha4, ha5⟩ := validSeg_parts a ha
  unfold parseTsmPath
  dsimp only
  rw [show goClean ⟨"/sys/kernel/config/tsm/report/".data ++ u.data ++ '/' :: a.data⟩ =
    ⟨"/sys/kernel/config/tsm/report/".data ++ u.data ++ '/' :: a.data⟩ from
      congrArg String.mk (goCleanL_report_seg2 u.data a.data hu1 hu3 hu4 hu5 ha1 ha3 ha4 ha5)]
  rw [show dropPre tsmRootPath
      ⟨"/sys/kernel/config/tsm/report/".data ++ u.data ++ '/' :: a.data⟩ =
    ⟨"/report/".data ++ (u.data ++ '/' :: a.data)⟩ from by
      rw [List.append_assoc]
      rfl]
  rw [if_neg (by
    intro h
    have h2 := congrArg (fun s => s.data.take 2) h
    exact absurd (show (['/', 'r'] : List Char) = ['/', 's'] from h2) (by decide))]
  rw [show dropPre ("/") ⟨"/report/".data ++ (u.data ++ '/' :: a.data)⟩ =
    ⟨"report/".data ++ u.data ++ '/' :: a.data⟩ from by
      rw [← List.append_assoc]
      rfl]
  rw [if_neg (by
    intro h
    exact absurd (show (['r'] : List Char) = [] from congrArg (fun s => s.data.take 1) h)
      (by decide))]
  rw [show goPathDir ⟨"report/".data ++ u.data ++ '/' :: a.data⟩ =
    ⟨"report/".data ++ u.data⟩ from
      congrArg String.mk (goPathDirL_reportRel2 u.data a.data hu1 hu3 hu4 hu5 ha1)]
  rw [show goPathBase ⟨"report/".data ++ u.data ++ '/' :: a.data⟩ = a from by
    rw [show goPathBase ⟨"report/".data ++ u.data ++ '/' :: a.data⟩ =
      ⟨goPathBaseL ("report/".data ++ u.data ++ '/' :: a.data)⟩ from rfl]
    rw [goPathBaseL_reportRel2 u.data a.data ha1 ha3]]
  rw [if_neg (by
    intro h
    have h2 := congrArg (fun s => s.data.take 1) h
    exact absurd (show (['r'] : List Char) = ['.'] from h2) (by decide))]
  rw [show goPathDir ⟨"report/".data ++ u.data⟩ = "report" from
    congrArg String.mk (goPathDirL_reportRel u.data hu1)]
  rw [show goPathBase ⟨"report/".data ++ u.data⟩ = u from by
    rw [show goPathBase ⟨"report/".data ++ u.data⟩ =
      ⟨goPathBaseL ("report/".data ++ u.data)⟩ from rfl]
    rw [goPathBaseL_reportRel u.data hu1 hu3]]
  rw [if_neg (by decide : ¬ ("report" : String) = ".")]
  rw [show goPathDir ("report") = "." from by decide]
  rw [show goPathBase ("report") = "report" from by decide]
  rw [if_neg (by simp : ¬ ("." : String) ≠ ".")]

theorem validSeg_ne_empty (u : String) (hu : validSeg u = true) : (u != "") = true := by
  obtain ⟨_, _, h3, _, _⟩ := validSeg_parts u hu
  simp only [bne_iff_ne, ne_eq]
  intro h
  exact h3 (by rw [h])

/-- `TsmPath.String()` of `{report, <entry>, ""}` composes the entry path. -/
theorem pathString_entry (u : String) (hu : validSeg u = true) :
    TsmPath.pathString ⟨"report", u, ""⟩ =
      ⟨"/sys/kernel/config/tsm/report/".data ++ u.data⟩ := by
  obtain ⟨h1, _, h3, h4, h5⟩ := validSeg_parts u hu
  unfold TsmPath.pathString goPathJoin
  dsimp only
  rw [show List.filter (fun s => s != "") [tsmRootPath, ("report" : String), u, ""] =
    tsmRootPath :: ("report" : String) :: List.filter (fun s => s != "") [u, ""] from rfl]
  rw [List.filter_cons, if_pos (validSeg_ne_empty u hu)]
  rw [show List.filter (fun s => s != "") [("" : String)] = [] from rfl]
  rw [if_neg (by simp)]
  rw [show (tsmRootPath :: ("report" : String) :: [u]).map String.data =
    [tsmRootPath.data, "report".data, u.data] from rfl]
  rw [show joinSlash [tsmRootPath.data, "report".data, u.data] =
    "/sys/kernel/config/tsm/report/".data ++ u.data from rfl]
  exact congrArg String.mk (goCleanL_report_seg u.data h1 h3 h4 h5)

/-- `TsmPath.String()` of `{report, <entry>, <attr>}` composes the attribute
path. -/
theorem pathString_attr (u a : String) (hu : validSeg u = true) (ha : validSeg a = true) :
    TsmPath.pathString ⟨"report", u, a⟩ =
      ⟨"/sys/kernel/config/tsm/report/".data ++ u.data ++ '/' :: a.data⟩ := by
  obtain ⟨hu1, _, hu3, hu4, hu5⟩ := validSeg_parts u hu
  obtain ⟨ha1, _, ha3, ha4, ha5⟩ := validSeg_parts a ha
  unfold TsmPath.pathString goPathJoin
  dsimp only
  rw [show List.filter (fun s => s != "") [tsmRootPath, ("report" : String), u, a] =
    tsmRootPath :: ("report" : String) :: List.filter (fun s => s != "") [u, a] from rfl]
  rw [List.filter_cons, if_pos (validSeg_ne_empty u hu)]
  rw [List.filter_cons, if_pos (validSeg_ne_empty a ha)]
  rw [show List.filter (fun s => s != "") ([] : List String) = [] from rfl]
  rw [if_neg (by simp)]
  rw [show (tsmRootPath :: ("report" : String) :: u :: [a]).map String.data =
    [tsmRootPath.data, "report".data, u.data, a.data] from rfl]
  rw [show joinSlash [tsmRootPath.data, "report".data, u.data, a.data] =
    "/sys/kernel/config/tsm/report/".data ++ (u.data ++ '/' :: a.data) from by
      show tsmRootPath.data ++ '/' :: ("report".data ++ '/' :: (u.data ++ '/' :: a.data)) = _
      rfl]
  rw [← List.append_assoc]
  exact congrArg String.mk (goCleanL_report_seg2 u.data a.data hu1 hu3 hu4 hu5 ha1 ha3 ha4 ha5)

/-! Claim theorems. -/

/-- C8: the claim says `TempName` replaces the last `*` of the pattern with a
string of `randomPathSize` characters derived from bytes read from the
randomness source. The code reads the bytes but never assigns `randString`
(its `readableString` helper is dead code), so the placeholder is replaced by
the empty string: with six bytes available and pattern `entry-*`, the produced
name is `entry-`, not `entry-` followed by six characters such as
`readableString`'s rendering `000000` of the read bytes. This contradicts the
function's own documentation (`returns a random filename`) and the evident
intent of the dead helper, so the code, not the claim, is wrong. -/
theorem tempName_drops_placeholder :
    TempName [0, 0, 0, 0, 0, 0] subsystemPath ("entry-*") = "entry-" ∧
      readableString [0, 0, 0, 0, 0, 0] = "000000" ∧
      (TempName [0, 0, 0, 0, 0, 0] subsystemPath ("entry-*")).length ≠
        ("entry-").length + randomPathSize := by
  refine ⟨by decide, by decide, by decide⟩

/-- C4: reading the pseudo-attribute `"generation"` of a non-destroyed entry
always takes the fast path: `readCached` returns the decimal rendering of
`writeGeneration` (so it never signals `EWOULDBLOCK`), and `ReadFile` returns
that rendering with the subsystem state unchanged, for any choice of the
computation policy (so the slow path, the cache and the policy are never
involved), whatever the two generation counters are. -/
theorem readFile_generation_fast_path (r : ReportSubsystem) (name : String) (p : TsmPath)
    (hp : parseTsmPath name = .ok p) (hattr : p.attr = "generation")
    (e : ReportEntry) (he : alookup r.Entries p.entry = some e)
    (hd : e.destroyed = false) :
    e.readCached ("generation") = .ok (natToDecBytes e.writeGeneration) ∧
    ∀ f, ReportSubsystem.ReadFile { r with ReadAttr := f } name =
      (.ok (natToDecBytes e.writeGeneration), { r with ReadAttr := f }) := by
  have hrc : e.readCached ("generation") = .ok (natToDecBytes e.writeGeneration) := by
    unfold ReportEntry.readCached
    rw [if_neg (by rw [hd]; exact Bool.false_ne_true)]
    rw [if_pos rfl]
  refine ⟨hrc, fun f => ?_⟩
  unfold ReportSubsystem.ReadFile
  rw [hp]
  dsimp only
  rw [if_neg (by rw [hattr]; decide)]
  rw [he]
  dsimp only
  rw [hattr, hrc]
  rw [if_pos (by simp [fastReturnOk])]

/-- C4 witness: a concrete subsystem with one fresh entry; reading its
`"generation"` attribute returns `"0"` and leaves the state unchanged. -/
theorem readFile_generation_fast_path_witness :
    ReportSubsystem.ReadFile
        { ReportV7 3 [] with ReadAttr := readV7 3, Entries := [("e1", makeV7 ())] }
        ("/sys/kernel/config/tsm/report/e1/generation") =
      (.ok (strBytes ("0")),
        { ReportV7 3 [] with ReadAttr := readV7 3, Entries := [("e1", makeV7 ())] }) :=
  (readFile_generation_fast_path
    { ReportV7 3 [] with Entries := [("e1", makeV7 ())] }
    ("/sys/kernel/config/tsm/report/e1/generation") ⟨"report", "e1", "generation"⟩
    (by decide) rfl (makeV7 ()) rfl rfl).2 (readV7 3)

/-- C1: on a non-destroyed entry whose contents pass the validation policy (and
whose attribute is mapped in `InAttrs`, as the source requires of every entry:
`All possible attributes ought to be mapped on creation`), `WriteFile` fails
with `EBUSY` exactly when `writeGeneration = readGeneration - 1` in `uint64`
arithmetic, and otherwise succeeds, incrementing `writeGeneration` by one
(modulo `2^64`) and replacing the stored value with the written contents. -/
theorem writeFile_busy_iff (r : ReportSubsystem) (name : String) (contents : List Nat)
    (p : TsmPath) (hp : parseTsmPath name = .ok p) (hattr : p.attr ≠ "")
    (e : ReportEntry) (he : alookup r.Entries p.entry = some e) (hd : e.destroyed = false)
    (hok : r.CheckInAttr e p.attr contents = none)
    (a : ReportAttributeState) (hk : alookup e.inAttrs p.attr = some a) :
    ((r.WriteFile name contents).1 = .error .eBUSY ↔
      e.writeGeneration = (e.readGeneration + (U64 - 1)) % U64) ∧
    (e.writeGeneration ≠ (e.readGeneration + (U64 - 1)) % U64 →
      (r.WriteFile name contents).1 = .ok () ∧
      alookup (r.WriteFile name contents).2.Entries p.entry =
        some { e with writeGeneration := (e.writeGeneration + 1) % U64,
                      inAttrs := aset e.inAttrs p.attr { a with value := contents } }) := by
  unfold ReportSubsystem.WriteFile
  rw [hp]
  dsimp only
  rw [if_neg hattr, he]
  dsimp only
  rw [if_neg (by rw [hd]; exact Bool.false_ne_true), hok]
  unfold ReportEntry.tryAdvanceWriteGeneration
  rw [if_neg (by rw [hd]; exact Bool.false_ne_true)]
  by_cases hbusy : e.writeGeneration = (e.readGeneration + (U64 - 1)) % U64
  · rw [if_pos hbusy]
    exact ⟨⟨fun _ => hbusy, fun _ => rfl⟩, fun hn => absurd hbusy hn⟩
  · rw [if_neg hbusy]
    dsimp only
    rw [hk]
    dsimp only
    refine ⟨⟨fun h => absurd h (by simp), fun h => absurd h hbusy⟩, fun _ => ⟨rfl, ?_⟩⟩
    exact alookup_aset_self r.Entries p.entry _

/-- C1 witness: writing `"hi"` to the fresh entry's inblob succeeds and sets
generation 1 with the new value stored. -/
theorem writeFile_busy_iff_witness :
    (ReportSubsystem.WriteFile { ReportV7 0 [] with Entries := [("e1", makeV7 ())] }
        ("/sys/kernel/config/tsm/report/e1/inblob") (strBytes ("hi"))).1 = .ok () ∧
    alookup (ReportSubsystem.WriteFile { ReportV7 0 [] with Entries := [("e1", makeV7 ())] }
        ("/sys/kernel/config/tsm/report/e1/inblob") (strBytes ("hi"))).2.Entries ("e1") =
      some ⟨false, 0, (0 + 1) % U64,
        aset (makeV7 ()).inAttrs ("inblob") ⟨strBytes ("hi"), false⟩, []⟩ :=
  (writeFile_busy_iff { ReportV7 0 [] with Entries := [("e1", makeV7 ())] }
    ("/sys/kernel/config/tsm/report/e1/inblob") (strBytes ("hi"))
    ⟨"report", "e1", "inblob"⟩ (by decide) (by decide) (makeV7 ()) rfl rfl (by decide)
    { value := [], readWrite := false } rfl).2 (by decide)

/-- Complete case analysis of `WriteFile`: either it fails before any mutation
(state unchanged, result not success), or the entry exists, is live, passes
validation and advances its generation, after which the mapped attribute is
updated on success, while a missing attribute mapping panics on the nil
pointer with the generation already advanced. -/
theorem writeFile_cases (r : ReportSubsystem) (name : String) (contents : List Nat) :
    ((r.WriteFile name contents).2 = r ∧ (r.WriteFile name contents).1 ≠ .ok () ∧
      (r.WriteFile name contents).1 ≠ .error .nilDeref) ∨
    (∃ p e, parseTsmPath name = .ok p ∧ p.attr ≠ "" ∧ alookup r.Entries p.entry = some e ∧
      e.destroyed = false ∧ r.CheckInAttr e p.attr contents = none ∧
      e.writeGeneration ≠ (e.readGeneration + (U64 - 1)) % U64 ∧
      ((∃ a, alookup e.inAttrs p.attr = some a ∧
         (r.WriteFile name contents).1 = .ok () ∧
         (r.WriteFile name contents).2 = { r with Entries := aset r.Entries p.entry { e with writeGeneration := (e.writeGeneration + 1) % U64, inAttrs := aset e.inAttrs p.attr { a with value := contents } } }) ∨
       (alookup e.inAttrs p.attr = none ∧
         (r.WriteFile name contents).1 = .error .nilDeref ∧
         (r.WriteFile name contents).2 = { r with Entries := aset r.Entries p.entry { e with writeGeneration := (e.writeGeneration + 1) % U64 } }))) := by
  unfold ReportSubsystem.WriteFile
  cases hp : parseTsmPath name with
  | error err => exact Or.inl ⟨rfl, by simp, by simp⟩
  | ok p =>
    dsimp only
    by_cases hattr : p.attr = ""
    · rw [if_pos hattr]
      exact Or.inl ⟨rfl, by simp, by simp⟩
    · rw [if_neg hattr]
      cases he : alookup r.Entries p.entry with
      | none => exact Or.inl ⟨rfl, by simp, by simp⟩
      | some e =>
        dsimp only
        cases hd : e.destroyed with
        | true => rw [if_pos rfl]; exact Or.inl ⟨rfl, by simp, by simp⟩
        | false =>
          rw [if_neg Bool.false_ne_true]
          cases hc : r.CheckInAttr e p.attr contents with
          | some err => exact Or.inl ⟨rfl, by simp, by simp⟩
          | none =>
            dsimp only
            unfold ReportEntry.tryAdvanceWriteGeneration
            rw [if_neg (by rw [hd]; exact Bool.false_ne_true)]
            by_cases hbusy : e.writeGeneration = (e.readGeneration + (U64 - 1)) % U64
            · rw [if_pos hbusy]
              exact Or.inl ⟨rfl, by simp, by simp⟩
            · rw [if_neg hbusy]
              dsimp only
              cases hk : alookup e.inAttrs p.attr with
              | none =>
                exact Or.inr ⟨p, e, rfl, hattr, he, hd, hc, hbusy,
                  Or.inr ⟨hk, rfl, rfl⟩⟩
              | some a =>
                exact Or.inr ⟨p, e, rfl, hattr, he, hd, hc, hbusy,
                  Or.inl ⟨a, hk, rfl, rfl⟩⟩

/-- C2: in `ReadOption`, when the attribute read itself succeeds and the
follow-up read of `"generation"` parses to `g`, the call fails with the
generation-mismatch (tamper/race) error whenever `g` differs from the
session's `expectedGeneration`, and returns the attribute data exactly when
they agree. -/
theorem readOption_generation_check {σ : Type} (C : ClientOps σ) (s : σ) (r : OpenReport)
    (subtree : String) (pa : TsmPath) (hent : r.entry = some pa)
    (data : List Nat) (s1 : σ)
    (hread : C.readFile s (TsmPath.pathString { pa with attr := subtree }) = (.ok data, s1))
    (gb : List Nat) (s2 : σ)
    (hgen : C.readFile s1 (TsmPath.pathString { pa with attr := ("generation") }) = (.ok gb, s2))
    (g : Nat) (hparse : parseUintDec gb 64 = .ok g) :
    (g ≠ r.expectedGeneration →
      (OpenReport.ReadOption C s r subtree).1 =
        .error (.errGenerationMismatch g r.expectedGeneration)) ∧
    ((OpenReport.ReadOption C s r subtree).1 = .ok data ↔ g = r.expectedGeneration) := by
  unfold OpenReport.ReadOption OpenReport.attributePath
  rw [hent]
  dsimp only
  rw [hread]
  dsimp only
  unfold readUint64File
  rw [hgen]
  dsimp only
  rw [hparse]
  dsimp only
  by_cases hg : g = r.expectedGeneration
  · rw [if_neg (by simpa using hg)]
    exact ⟨fun h => absurd hg h, by simp [hg]⟩
  · rw [if_pos hg]
    exact ⟨fun _ => rfl, ⟨fun h => absurd h (by simp), fun h => absurd h hg⟩⟩

/-- C2 witness: with the fake subsystem holding a cached `outblob` and an
aligned entry, a session expecting generation 1 fails the read of the
(successfully readable) attribute with the mismatch error carrying 0 and 1. -/
theorem readOption_generation_check_witness :
    (OpenReport.ReadOption faketsmOps
        { ReportV7 0 [] with Entries := [("e1", { makeV7 () with roAttrs := [("outblob", strBytes ("x"))] })] }
        ⟨[], none, false, some ⟨"report", "e1", ""⟩, 1⟩ ("outblob")).1 =
      .error (.errGenerationMismatch 0 1) :=
  (readOption_generation_check faketsmOps
    { ReportV7 0 [] with Entries := [("e1", { makeV7 () with roAttrs := [("outblob", strBytes ("x"))] })] }
    ⟨[], none, false, some ⟨"report", "e1", ""⟩, 1⟩ ("outblob") ⟨"report", "e1", ""⟩ rfl
    (strBytes ("x")) _ rfl (strBytes ("0")) _ rfl 0 (by decide)).1 (by decide)

/-- C5 counterexample: the claim says the output cache is reset by every
successful write. On an entry holding a cached `outblob` with aligned
generations, a successful inblob write leaves that cached value in place. -/
theorem writeFile_cache_not_cleared_cex :
    (ReportSubsystem.WriteFile { ReportV7 0 [] with Entries := [("e1", { makeV7 () with roAttrs := [("outblob", strBytes ("stale"))] })] } ("/sys/kernel/config/tsm/report/e1/inblob") (strBytes ("x"))).1 = .ok () ∧
    alookup (ReportSubsystem.WriteFile { ReportV7 0 [] with Entries := [("e1", { makeV7 () with roAttrs := [("outblob", strBytes ("stale"))] })] } ("/sys/kernel/config/tsm/report/e1/inblob") (strBytes ("x"))).2.Entries ("e1") =
      some ⟨false, 0, 1, [("privlevel", ⟨strBytes ("0"), false⟩), ("inblob", ⟨strBytes ("x"), false⟩)], [("outblob", strBytes ("stale"))]⟩ ∧
    ([("outblob", strBytes ("stale"))] : List (String × List Nat)) ≠ [] := by
  exact ⟨by decide, by decide, by decide⟩

/-- C5 amended: a successful `WriteFile` does not clear the output cache — the
entry keeps its `ROAttrs` untouched — but it always leaves the two generation
counters unequal (for in-range `uint64` counters), which is what prevents the
fast path from serving the cached outputs until the generations realign. -/
theorem writeFile_success_cache_guarded (r : ReportSubsystem) (name : String)
    (contents : List Nat) (p : TsmPath) (hp : parseTsmPath name = .ok p)
    (e : ReportEntry) (he : alookup r.Entries p.entry = some e)
    (hwg : e.writeGeneration < U64) (hrg : e.readGeneration < U64)
    (hok : (r.WriteFile name contents).1 = .ok ()) :
    ∃ e1, alookup (r.WriteFile name contents).2.Entries p.entry = some e1 ∧
      e1.roAttrs = e.roAttrs ∧ e1.writeGeneration ≠ e1.readGeneration := by
  rcases writeFile_cases r name contents with ⟨_, hne, _⟩ | ⟨p2, e2, hp2, _, he2, _, _, hbusy, hsub⟩
  · exact absurd hok hne
  · have hpp : p = p2 := Except.ok.inj (hp.symm.trans hp2)
    subst hpp
    have hee : e = e2 := Option.some.inj (he.symm.trans he2)
    subst hee
    rcases hsub with ⟨a, hk, _, hst⟩ | ⟨_, hbad, _⟩
    · refine ⟨{ e with writeGeneration := (e.writeGeneration + 1) % U64, inAttrs := aset e.inAttrs p.attr { a with value := contents } }, ?_, rfl, ?_⟩
      · rw [hst]
        exact alookup_aset_self r.Entries p.entry _
      · show (e.writeGeneration + 1) % U64 ≠ e.readGeneration
        have hU : U64 = 18446744073709551616 := by norm_num [U64]
        rw [hU]
        rw [hU] at hbusy hwg hrg
        omega
    · rw [hbad] at hok
      exact absurd hok (by simp)

/-- C5 amended witness: the counterexample state, through the amended theorem:
the cache survives the successful write and the generations differ. -/
theorem writeFile_success_cache_guarded_witness :
    ∃ e1, alookup (ReportSubsystem.WriteFile { ReportV7 0 [] with Entries := [("e1", { makeV7 () with roAttrs := [("outblob", strBytes ("stale"))] })] } ("/sys/kernel/config/tsm/report/e1/inblob") (strBytes ("x"))).2.Entries ("e1") = some e1 ∧
      e1.roAttrs = [("outblob", strBytes ("stale"))] ∧
      e1.writeGeneration ≠ e1.readGeneration :=
  writeFile_success_cache_guarded
    { ReportV7 0 [] with Entries := [("e1", { makeV7 () with roAttrs := [("outblob", strBytes ("stale"))] })] }
    ("/sys/kernel/config/tsm/report/e1/inblob") (strBytes ("x")) ⟨"report", "e1", "inblob"⟩
    (by decide) _ rfl (by decide) (by decide) (by decide)

theorem parseUintLoop_ok_digits (b : Nat) (l : List Nat) : ∀ acc v : Nat,
    parseUintLoop b l acc = .ok v → ∀ c ∈ l, 48 ≤ c ∧ c ≤ 57 := by
  induction l with
  | nil => intro acc v _ c hc; simp at hc
  | cons d t ih =>
    intro acc v h c hc
    unfold parseUintLoop at h
    by_cases hd : 48 ≤ d ∧ d ≤ 57
    · rw [if_pos hd] at h
      rcases List.mem_cons.mp hc with rfl | hmem
      · exact hd
      · by_cases hcut : acc * 10 + (d - 48) ≤ 2 ^ b - 1
        · rw [if_pos hcut] at h
          exact ih _ v h c hmem
        · rw [if_neg hcut] at h
          exact absurd h (by simp)
    · rw [if_neg hd] at h
      exact absurd h (by simp)

theorem parseUintDec_ok_digits (s : List Nat) (b v : Nat) (h : parseUintDec s b = .ok v) :
    ∀ c ∈ s, 48 ≤ c ∧ c ≤ 57 := by
  unfold parseUintDec at h
  by_cases hs : s = []
  · rw [if_pos hs] at h
    exact absurd h (by simp)
  · rw [if_neg hs] at h
    exact parseUintLoop_ok_digits b s 0 v h

theorem utf8ValidFuel_digits : ∀ (fuel : Nat) (l : List Nat),
    (∀ c ∈ l, 48 ≤ c ∧ c ≤ 57) → l.length ≤ fuel → utf8ValidFuel fuel l = true := by
  intro fuel
  induction fuel with
  | zero =>
    intro l h hl
    cases l with
    | nil => rfl
    | cons c t => simp at hl
  | succ f ih =>
    intro l h hl
    cases l with
    | nil => rfl
    | cons c t =>
      have hc := h c (List.mem_cons_self c t)
      have hlead : utf8Lead c = 1 := by unfold utf8Lead; rw [if_pos (by omega)]
      simp only [utf8ValidFuel]
      rw [show utf8ContOk c t = true from by unfold utf8ContOk; rw [hlead]]
      rw [hlead]
      rw [show t.drop (1 - 1) = t from by simp]
      rw [ih t (fun x hx => h x (List.mem_cons_of_mem c hx)) (by simpa using hl)]
      rfl

theorem utf8Valid_digits (l : List Nat) (h : ∀ c ∈ l, 48 ≤ c ∧ c ≤ 57) :
    utf8Valid l = true :=
  utf8ValidFuel_digits l.length l h le_rfl

/-- C6: a write whose contents the validation policy rejects returns an error
and leaves the whole subsystem state — in particular `writeGeneration` and
every stored input value — unchanged; and the V7 policy indeed rejects an
inblob longer than `tsmInBlobSize` bytes, a privlevel that fails to parse as
an in-range decimal, and a privlevel below the configured floor. -/
theorem writeFile_reject_unchanged (r : ReportSubsystem) (name : String)
    (contents : List Nat) (p : TsmPath) (hp : parseTsmPath name = .ok p)
    (e : ReportEntry) (he : alookup r.Entries p.entry = some e)
    (hrej : r.CheckInAttr e p.attr contents ≠ none) :
    ((∃ err, (r.WriteFile name contents).1 = .error err) ∧
      (r.WriteFile name contents).2 = r) ∧
    (∀ fl e2, contents.length > tsmInBlobSize → checkV7 fl e2 ("inblob") contents ≠ none) ∧
    (∀ fl e2 err2, parseUintDec contents 2 = .error err2 →
      checkV7 fl e2 ("privlevel") contents ≠ none) ∧
    (∀ fl e2 v, parseUintDec contents 2 = .ok v → v < fl →
      checkV7 fl e2 ("privlevel") contents ≠ none) := by
  refine ⟨?_, ?_, ?_, ?_⟩
  · rcases writeFile_cases r name contents with ⟨hst, hne, _⟩ | ⟨p2, e2, hp2, _, he2, _, hchk, _, _⟩
    · refine ⟨?_, hst⟩
      cases hres : (r.WriteFile name contents).1 with
      | error err => exact ⟨err, rfl⟩
      | ok u => cases u; exact absurd hres hne
    · have hpp : p = p2 := Except.ok.inj (hp.symm.trans hp2)
      subst hpp
      have hee : e = e2 := Option.some.inj (he.symm.trans he2)
      subst hee
      exact absurd hchk hrej
  · intro fl e2 hlen
    unfold checkV7
    rw [if_pos rfl, if_pos hlen]
    simp
  · intro fl e2 err2 hperr
    unfold checkV7
    rw [if_neg (by decide : ¬ ("privlevel" : String) = "inblob"), if_pos rfl]
    by_cases hv : utf8Valid contents = true
    · rw [if_neg (by simp [hv]), hperr]
      simp
    · rw [if_pos (by simp [Bool.not_eq_true] at hv; simp [hv])]
      simp
  · intro fl e2 v hpok hlt
    unfold checkV7
    rw [if_neg (by decide : ¬ ("privlevel" : String) = "inblob"), if_pos rfl]
    rw [if_neg (by simp [utf8Valid_digits contents (parseUintDec_ok_digits contents 2 v hpok)])]
    rw [hpok]
    dsimp only
    rw [if_pos hlt]
    simp

/-- C6 witness: a 65-byte inblob write is rejected by the V7 policy, errors,
and leaves the subsystem exactly as it was. -/
theorem writeFile_reject_unchanged_witness :
    ((∃ err, (ReportSubsystem.WriteFile { ReportV7 0 [] with Entries := [("e1", makeV7 ())] } ("/sys/kernel/config/tsm/report/e1/inblob") (List.replicate 65 0)).1 = .error err) ∧
      (ReportSubsystem.WriteFile { ReportV7 0 [] with Entries := [("e1", makeV7 ())] } ("/sys/kernel/config/tsm/report/e1/inblob") (List.replicate 65 0)).2 =
        { ReportV7 0 [] with Entries := [("e1", makeV7 ())] }) ∧
    (∀ fl e2, (List.replicate 65 0).length > tsmInBlobSize →
      checkV7 fl e2 ("inblob") (List.replicate 65 0) ≠ none) ∧
    (∀ fl e2 err2, parseUintDec (List.replicate 65 0) 2 = .error err2 →
      checkV7 fl e2 ("privlevel") (List.replicate 65 0) ≠ none) ∧
    (∀ fl e2 v, parseUintDec (List.replicate 65 0) 2 = .ok v → v < fl →
      checkV7 fl e2 ("privlevel") (List.replicate 65 0) ≠ none) :=
  writeFile_reject_unchanged { ReportV7 0 [] with Entries := [("e1", makeV7 ())] }
    ("/sys/kernel/config/tsm/report/e1/inblob") (List.replicate 65 0)
    ⟨"report", "e1", "inblob"⟩ (by decide) (makeV7 ()) rfl (by decide)

theorem alookup_aset_cases {α : Type} (l : List (String × α)) (k n : String) (v w : α)
    (h : alookup (aset l k v) n = some w) :
    (n = k ∧ w = v) ∨ alookup l n = some w := by
  by_cases hk : k = n
  · subst hk
    rw [alookup_aset_self] at h
    exact Or.inl ⟨rfl, (Option.some.inj h).symm⟩
  · rw [alookup_aset_ne l k n v hk] at h
    exact Or.inr h

/-- Complete shape analysis of `ReadFile`'s state effect: either the state is
untouched, or exactly the cache (`ROAttrs`) of the entry the path names was
rewritten, every other entry and every other field of that entry intact. -/
theorem readFile_state_shape (r : ReportSubsystem) (name : String) :
    (r.ReadFile name).2 = r ∨
    (∃ p e e1, parseTsmPath name = .ok p ∧ alookup r.Entries p.entry = some e ∧
      (r.ReadFile name).2 = { r with Entries := aset r.Entries p.entry e1 } ∧
      e1.writeGeneration = e.writeGeneration ∧ e1.readGeneration = e.readGeneration ∧
      e1.destroyed = e.destroyed ∧ e1.inAttrs = e.inAttrs) := by
  unfold ReportSubsystem.ReadFile
  cases hp : parseTsmPath name with
  | error err => exact Or.inl rfl
  | ok p =>
    dsimp only
    by_cases hattr : p.attr = ""
    · rw [if_pos hattr]
      exact Or.inl rfl
    · rw [if_neg hattr]
      cases he : alookup r.Entries p.entry with
      | none => exact Or.inl rfl
      | some e =>
        dsimp only
        by_cases hfast : fastReturnOk (e.readCached p.attr) = true
        · rw [if_pos hfast]
          exact Or.inl rfl
        · rw [if_neg hfast]
          have hslow : ∀ hcall : (r.readSlow p.entry p.attr e).2 = (r.readSlow p.entry p.attr e).2,
              (r.readSlow p.entry p.attr e).2 = r ∨
              (∃ p2 e2 e1, (Except.ok p : Except GoErr TsmPath) = .ok p2 ∧
                alookup r.Entries p2.entry = some e2 ∧
                (r.readSlow p.entry p.attr e).2 = { r with Entries := aset r.Entries p2.entry e1 } ∧
                e1.writeGeneration = e2.writeGeneration ∧ e1.readGeneration = e2.readGeneration ∧
                e1.destroyed = e2.destroyed ∧ e1.inAttrs = e2.inAttrs) := by
            intro _
            unfold ReportSubsystem.readSlow
            dsimp only
            cases hra : r.ReadAttr { e with roAttrs := aset e.roAttrs p.attr [] } p.attr with
            | error err =>
              exact Or.inr ⟨p, e, { e with roAttrs := aset e.roAttrs p.attr [] }, rfl, he,
                rfl, rfl, rfl, rfl, rfl⟩
            | ok b =>
              exact Or.inr ⟨p, e,
                { e with roAttrs := aset (aset e.roAttrs p.attr []) p.attr b }, rfl, he,
                rfl, rfl, rfl, rfl, rfl⟩
          cases hro : alookup e.roAttrs p.attr with
          | some b =>
            dsimp only
            by_cases hg : e.readGeneration = e.writeGeneration
            · rw [if_pos hg]
              exact Or.inl rfl
            · rw [if_neg hg]
              exact hslow rfl
          | none => exact hslow rfl

/-- `readCached` signals `EWOULDBLOCK` only for a live entry, a non-generation
attribute, and misaligned generation counters. -/
theorem readCached_wouldblock (e : ReportEntry) (attr : String)
    (h : e.readCached attr = .error .eWOULDBLOCK) :
    e.destroyed = false ∧ attr ≠ "generation" ∧ e.readGeneration ≠ e.writeGeneration := by
  unfold ReportEntry.readCached at h
  by_cases hd : e.destroyed = true
  · rw [if_pos hd] at h
    exact absurd h (by simp)
  · rw [if_neg hd] at h
    by_cases hg : attr = "generation"
    · rw [if_pos hg] at h
      exact absurd h (by simp)
    · rw [if_neg hg] at h
      by_cases hrw : e.readGeneration ≠ e.writeGeneration
      · exact ⟨by simpa using hd, hg, hrw⟩
      · rw [if_neg hrw] at h
        cases hk : alookup e.inAttrs attr with
        | some a =>
          rw [hk] at h
          dsimp only at h
          split at h <;> exact absurd h (by simp)
        | none =>
          rw [hk] at h
          dsimp only at h
          cases hro : alookup e.roAttrs attr with
          | some b =>
            rw [hro] at h
            dsimp only at h
            split at h <;> exact absurd h (by simp)
          | none =>
            rw [hro] at h
            exact absurd h (by simp)

/-- C7: (i) when the fast path signalled `EWOULDBLOCK` and the computation
policy then fails on the slow path, `ReadFile` propagates the wrapped error
and the entry keeps the empty pending sentinel in that attribute's cache slot
(the policy is invoked on the entry already carrying the sentinel); (ii) once
the generations are realigned (by the external seam — nothing in the package
moves `ReadGeneration`), a read of a non-input attribute whose cache slot
holds the empty sentinel succeeds with empty content from the fast path, with
the state unchanged and for any computation policy, so the policy is not
retried. -/
theorem readFile_failed_policy_sentinel :
    (∀ (r : ReportSubsystem) (name : String) (p : TsmPath) (e : ReportEntry) (err : GoErr),
      parseTsmPath name = .ok p → p.attr ≠ "" →
      alookup r.Entries p.entry = some e →
      e.readCached p.attr = .error .eWOULDBLOCK →
      r.ReadAttr { e with roAttrs := aset e.roAttrs p.attr [] } p.attr = .error err →
      (r.ReadFile name).1 = .error (.ctx ("ReadAttr") err) ∧
      alookup (r.ReadFile name).2.Entries p.entry =
        some { e with roAttrs := aset e.roAttrs p.attr [] }) ∧
    (∀ (r : ReportSubsystem) (name : String) (p : TsmPath) (e : ReportEntry),
      parseTsmPath name = .ok p → p.attr ≠ "" → p.attr ≠ "generation" →
      alookup r.Entries p.entry = some e →
      e.destroyed = false → e.readGeneration = e.writeGeneration →
      alookup e.inAttrs p.attr = none →
      alookup e.roAttrs p.attr = some [] →
      ∀ f, ReportSubsystem.ReadFile { r with ReadAttr := f } name =
        (.ok [], { r with ReadAttr := f })) := by
  constructor
  · intro r name p e err hp hattr he hfast herr
    obtain ⟨hd, hgen, hne⟩ := readCached_wouldblock e p.attr hfast
    unfold ReportSubsystem.ReadFile
    rw [hp]
    dsimp only
    rw [if_neg hattr, he]
    dsimp only
    rw [hfast]
    rw [if_neg (by simp [fastReturnOk])]
    have hslow : (r.readSlow p.entry p.attr e).1 = .error (.ctx ("ReadAttr") err) ∧
        alookup (r.readSlow p.entry p.attr e).2.Entries p.entry =
          some { e with roAttrs := aset e.roAttrs p.attr [] } := by
      unfold ReportSubsystem.readSlow
      dsimp only
      rw [herr]
      exact ⟨rfl, alookup_aset_self r.Entries p.entry _⟩
    cases hro : alookup e.roAttrs p.attr with
    | some b =>
      dsimp only
      rw [if_neg hne]
      exact hslow
    | none => exact hslow
  · intro r name p e hp hattr hgen he hd hg hin hro f
    unfold ReportSubsystem.ReadFile
    rw [hp]
    dsimp only
    rw [if_neg hattr, he]
    dsimp only
    have hrc : e.readCached p.attr = .ok [] := by
      unfold ReportEntry.readCached
      rw [if_neg (by rw [hd]; exact Bool.false_ne_true), if_neg hgen,
        if_neg (by simpa using hg), hin]
      dsimp only
      rw [hro]
      dsimp only
      rw [if_neg (by simp)]
    rw [hrc]
    rw [if_pos (by simp [fastReturnOk])]

/-- C7 witness: on an entry at generation 1 (read generation 0), a slow-path
read of `junk` fails through the V7 policy and leaves the empty sentinel; and
on a realigned entry with the sentinel cached, the read returns empty content
with the state untouched. -/
theorem readFile_failed_policy_sentinel_witness :
    ((ReportSubsystem.ReadFile { ReportV7 0 [] with Entries := [("e1", { makeV7 () with writeGeneration := 1 })] } ("/sys/kernel/config/tsm/report/e1/junk")).1 = .error (.ctx ("ReadAttr") .errNotExist) ∧
      alookup (ReportSubsystem.ReadFile { ReportV7 0 [] with Entries := [("e1", { makeV7 () with writeGeneration := 1 })] } ("/sys/kernel/config/tsm/report/e1/junk")).2.Entries ("e1") =
        some { { makeV7 () with writeGeneration := 1 } with roAttrs := aset (makeV7 ()).roAttrs ("junk") [] }) ∧
    ReportSubsystem.ReadFile { ReportV7 0 [] with ReadAttr := readV7 0, Entries := [("e1", { makeV7 () with roAttrs := [("junk", [])] })] } ("/sys/kernel/config/tsm/report/e1/junk") =
      (.ok [], { ReportV7 0 [] with ReadAttr := readV7 0, Entries := [("e1", { makeV7 () with roAttrs := [("junk", [])] })] }) :=
  ⟨readFile_failed_policy_sentinel.1
    { ReportV7 0 [] with Entries := [("e1", { makeV7 () with writeGeneration := 1 })] }
    ("/sys/kernel/config/tsm/report/e1/junk") ⟨"report", "e1", "junk"⟩
    { makeV7 () with writeGeneration := 1 } .errNotExist (by decide) (by decide) rfl
    (by decide) (by decide),
   readFile_failed_policy_sentinel.2
    { ReportV7 0 [] with Entries := [("e1", { makeV7 () with roAttrs := [("junk", [])] })] }
    ("/sys/kernel/config/tsm/report/e1/junk") ⟨"report", "e1", "junk"⟩
    { makeV7 () with roAttrs := [("junk", [])] } (by decide) (by decide) (by decide) rfl
    rfl rfl (by decide) (by decide) (readV7 0)⟩

/-- The V7 validation policy accepts no attribute other than `"inblob"` and
`"privlevel"`. -/
theorem checkV7_accepts_only (fl : Nat) (e : ReportEntry) (attr : String) (contents : List Nat)
    (h : checkV7 fl e attr contents = none) : attr = "inblob" ∨ attr = "privlevel" := by
  unfold checkV7 at h
  by_cases h1 : attr = "inblob"
  · exact Or.inl h1
  · by_cases h2 : attr = "privlevel"
    · exact Or.inr h2
    · rw [if_neg h1, if_neg h2] at h
      exact absurd h (by simp)

/-- C10: the V7 validation policy accepts exactly the attributes `"inblob"`
and `"privlevel"`; `makeV7` maps both; and on any subsystem using the V7
policy whose entries all map both (as every entry created through `MkdirTemp`
with `makeV7` does, and as `WriteFile` and `MkdirTemp` preserve), `WriteFile`
never reaches the nil-pointer dereference of the unguarded
`e.InAttrs[p.Attribute]` store. -/
theorem writeFile_v7_no_nil_deref (fl : Nat) :
    (∀ e attr contents, checkV7 fl e attr contents = none →
      attr = "inblob" ∨ attr = "privlevel") ∧
    hasV7Keys (makeV7 ()) ∧
    (∀ (r : ReportSubsystem) (name : String) (contents : List Nat),
      r.CheckInAttr = checkV7 fl →
      (∀ n e, alookup r.Entries n = some e → hasV7Keys e) →
      (r.WriteFile name contents).1 ≠ .error .nilDeref ∧
      (∀ n e, alookup (r.WriteFile name contents).2.Entries n = some e → hasV7Keys e)) ∧
    (∀ (r : ReportSubsystem) (dir pattern : String),
      r.MakeEntry = makeV7 →
      (∀ n e, alookup r.Entries n = some e → hasV7Keys e) →
      ∀ n e, alookup (r.MkdirTemp dir pattern).2.Entries n = some e → hasV7Keys e) := by
  refine ⟨checkV7_accepts_only fl, by unfold hasV7Keys; exact ⟨by decide, by decide⟩, ?_, ?_⟩
  · intro r name contents hC hinv
    rcases writeFile_cases r name contents with ⟨hst, _, hnd⟩ |
      ⟨p, e, hp, _, he, _, hchk, _, hsub⟩
    · rw [hst]
      exact ⟨hnd, hinv⟩
    · have hkeys := hinv p.entry e he
      unfold hasV7Keys at hkeys
      rcases hsub with ⟨a, hk, hok, hst⟩ | ⟨hnone, _, _⟩
      · rw [hok, hst]
        refine ⟨by simp, ?_⟩
        intro n e2 h2
        dsimp only at h2
        rcases alookup_aset_cases r.Entries p.entry n _ e2 h2 with ⟨_, rfl⟩ | hold
        · exact ⟨alookup_aset_isSome _ _ _ _ hkeys.1, alookup_aset_isSome _ _ _ _ hkeys.2⟩
        · exact hinv n e2 hold
      · rw [hC] at hchk
        rcases checkV7_accepts_only fl e p.attr contents hchk with hattr | hattr
        · rw [hattr] at hnone
          rw [hnone] at hkeys
          exact absurd hkeys.1 (by simp)
        · rw [hattr] at hnone
          rw [hnone] at hkeys
          exact absurd hkeys.2 (by simp)
  · intro r dir pattern hM hinv n e h
    unfold ReportSubsystem.MkdirTemp at h
    cases hp : parseTsmPath dir with
    | error err =>
      rw [hp] at h
      exact hinv n e h
    | ok p =>
      rw [hp] at h
      dsimp only at h
      by_cases hent : p.entry ≠ ""
      · rw [if_pos hent] at h
        exact hinv n e h
      · rw [if_neg hent] at h
        cases hcol : alookup r.Entries (TempName r.Random dir pattern) with
        | some e2 =>
          rw [hcol] at h
          exact hinv n e h
        | none =>
          rw [hcol] at h
          dsimp only at h
          rcases alookup_aset_cases r.Entries (TempName r.Random dir pattern) n _ e h with
            ⟨_, rfl⟩ | hold
          · rw [hM]
            unfold hasV7Keys
            exact ⟨by decide, by decide⟩
          · exact hinv n e hold

/-- C10 witness: a concrete V7 state through the theorem: the write does not
panic. -/
theorem writeFile_v7_no_nil_deref_witness :
    (ReportSubsystem.WriteFile { ReportV7 0 [] with Entries := [("e1", makeV7 ())] }
      ("/sys/kernel/config/tsm/report/e1/privlevel") (strBytes ("2"))).1 ≠
      .error .nilDeref :=
  ((writeFile_v7_no_nil_deref 0).2.2.1 { ReportV7 0 [] with Entries := [("e1", makeV7 ())] }
    ("/sys/kernel/config/tsm/report/e1/privlevel") (strBytes ("2")) rfl
    (fun n e h => by
      unfold alookup at h
      by_cases hn : ("e1" : String) = n
      · rw [if_pos hn] at h
        rw [show e = makeV7 () from (Option.some.inj h).symm]
        unfold hasV7Keys
        exact ⟨by decide, by decide⟩
      · rw [if_neg hn] at h
        exact absurd h (by simp [alookup]))).1

/-- One write step of a trace: the tracked entry's invariant advances by one
exactly when the write is a success addressed to it, and the validation
policy field is untouched. -/
theorem writeFile_trace_step (fl : Nat) (n0 : String) (r : ReportSubsystem) (n : String)
    (c : List Nat) (w : Nat) (hC : r.CheckInAttr = checkV7 fl)
    (hinv : entryTraceInv n0 r w) :
    entryTraceInv n0 (r.WriteFile n c).2
      (w + (if isOkWriteTo n0 r (.write n c) then 1 else 0)) ∧
    (r.WriteFile n c).2.CheckInAttr = r.CheckInAttr := by
  obtain ⟨e, he, hw, hr, hd, hwlt, hkeys⟩ := hinv
  have hU1 : (0 : Nat) < U64 := by norm_num [U64]
  rcases writeFile_cases r n c with ⟨hst, hne, _⟩ |
    ⟨p, e2, hp, hattr, he2, hd2, hchk, hbusy, hsub⟩
  · have hfalse : isOkWriteTo n0 r (.write n c) = false := by
      unfold isOkWriteTo
      dsimp only
      cases hpn : parseTsmPath n with
      | error err => rfl
      | ok p =>
        cases hres : (r.WriteFile n c).1 with
        | ok u => cases u; exact absurd hres hne
        | error err => rfl
    rw [hfalse, hst]
    exact ⟨⟨e, he, by simpa using hw, hr, hd, hwlt, hkeys⟩, rfl⟩
  · by_cases hpe : p.entry = n0
    · rw [hpe] at he2
      have hee : e2 = e := Option.some.inj (he2.symm.trans he)
      subst hee
      have hbusy2 : w ≠ U64 - 1 := by
        intro hcontra
        apply hbusy
        rw [hw, hr, hcontra, Nat.zero_add, Nat.mod_eq_of_lt (by omega)]
      rcases hsub with ⟨a, hk, hok, hst⟩ | ⟨hnone, _, _⟩
      · have htrue : isOkWriteTo n0 r (.write n c) = true := by
          unfold isOkWriteTo
          dsimp only
          rw [hp, hok]
          simp [hpe]
        rw [htrue, hst, if_pos rfl]
        refine ⟨⟨{ e2 with writeGeneration := (e2.writeGeneration + 1) % U64, inAttrs := aset e2.inAttrs p.attr { a with value := c } }, ?_, ?_, hr, hd, ?_, ?_⟩, rfl⟩
        · dsimp only
          rw [← hpe]
          exact alookup_aset_self r.Entries p.entry _
        · show (e2.writeGeneration + 1) % U64 = w + 1
          rw [hw, Nat.mod_eq_of_lt (by omega)]
        · omega
        · unfold hasV7Keys at hkeys
          exact ⟨alookup_aset_isSome _ _ _ _ hkeys.1, alookup_aset_isSome _ _ _ _ hkeys.2⟩
      · exfalso
        rw [hC] at hchk
        unfold hasV7Keys at hkeys
        rcases checkV7_accepts_only fl e2 p.attr c hchk with hat | hat
        · rw [hat] at hnone
          rw [hnone] at hkeys
          exact absurd hkeys.1 (by simp)
        · rw [hat] at hnone
          rw [hnone] at hkeys
          exact absurd hkeys.2 (by simp)
    · have hfalse : isOkWriteTo n0 r (.write n c) = false := by
        unfold isOkWriteTo
        dsimp only
        rw [hp]
        cases hres : (r.WriteFile n c).1 with
        | ok u => simp [hpe]
        | error err => rfl
      rcases hsub with ⟨a, hk, hok, hst⟩ | ⟨hnone, hres, hst⟩
      · rw [hfalse, hst]
        refine ⟨⟨e, ?_, by simpa using hw, hr, hd, hwlt, hkeys⟩, rfl⟩
        dsimp only
        rw [alookup_aset_ne r.Entries p.entry n0 _ hpe]
        exact he
      · rw [hfalse, hst]
        refine ⟨⟨e, ?_, by simpa using hw, hr, hd, hwlt, hkeys⟩, rfl⟩
        dsimp only
        rw [alookup_aset_ne r.Entries p.entry n0 _ hpe]
        exact he

/-- One read step of a trace: the tracked entry's invariant is untouched and
the validation policy field is untouched. -/
theorem readFile_trace_step (n0 : String) (r : ReportSubsystem) (n : String) (w : Nat)
    (hinv : entryTraceInv n0 r w) :
    entryTraceInv n0 (r.ReadFile n).2 w ∧ (r.ReadFile n).2.CheckInAttr = r.CheckInAttr := by
  obtain ⟨e, he, hw, hr, hd, hwlt, hkeys⟩ := hinv
  rcases readFile_state_shape r n with hst | ⟨p, e2, e1, hp, he2, hst, hg1, hg2, hg3, hg4⟩
  · rw [hst]
    exact ⟨⟨e, he, hw, hr, hd, hwlt, hkeys⟩, rfl⟩
  · rw [hst]
    refine ⟨?_, rfl⟩
    by_cases hpe : p.entry = n0
    · rw [hpe] at he2
      have hee : e2 = e := Option.some.inj (he2.symm.trans he)
      subst hee
      refine ⟨e1, ?_, by rw [hg1, hw], by rw [hg2, hr], by rw [hg3, hd], hwlt, ?_⟩
      · dsimp only
        rw [← hpe]
        exact alookup_aset_self r.Entries p.entry _
      · unfold hasV7Keys at hkeys ⊢
        rw [hg4]
        exact hkeys
    · refine ⟨e, ?_, hw, hr, hd, hwlt, hkeys⟩
      dsimp only
      rw [alookup_aset_ne r.Entries p.entry n0 _ hpe]
      exact he

/-- Along any write/read trace on a V7 subsystem, the tracked entry's write
generation grows by exactly the number of successful writes addressed to it. -/
theorem runCount_inv (fl : Nat) (n0 : String) : ∀ (ops : List FsOp) (r : ReportSubsystem)
    (w : Nat), r.CheckInAttr = checkV7 fl → entryTraceInv n0 r w →
    entryTraceInv n0 (runCount n0 r ops).1 (w + (runCount n0 r ops).2) := by
  intro ops
  induction ops with
  | nil =>
    intro r w _ hinv
    simpa [runCount] using hinv
  | cons op rest ih =>
    intro r w hC hinv
    simp only [runCount]
    cases op with
    | write n c =>
      obtain ⟨hinv2, hCp⟩ := writeFile_trace_step fl n0 r n c w hC hinv
      have hC2 : (applyOp r (.write n c)).CheckInAttr = checkV7 fl := by
        rw [show applyOp r (.write n c) = (r.WriteFile n c).2 from rfl, hCp, hC]
      have hrest := ih (applyOp r (.write n c))
        (w + (if isOkWriteTo n0 r (.write n c) then 1 else 0)) hC2 hinv2
      rw [← Nat.add_assoc]
      exact hrest
    | read n =>
      obtain ⟨hinv2, hCp⟩ := readFile_trace_step n0 r n w hinv
      have hC2 : (applyOp r (.read n)).CheckInAttr = checkV7 fl := by
        rw [show applyOp r (.read n) = (r.ReadFile n).2 from rfl, hCp, hC]
      have hrest := ih (applyOp r (.read n)) w hC2 hinv2
      rw [show (if isOkWriteTo n0 r (.read n) then 1 else 0) = 0 from rfl, Nat.zero_add]
      exact hrest

/-- C3: starting from an entry freshly created by `MakeEntry` (= `makeV7`, so
`writeGeneration` starts at 0), after any finite trace of `WriteFile` and
`ReadFile` calls on the V7 subsystem, the entry's `writeGeneration` equals the
number of those writes that were addressed to it and returned success: each
successful write adds exactly one, failed writes and reads add nothing. -/
theorem writeGeneration_counts_successes (fl : Nat) (rnd : List Nat)
    (es : List (String × ReportEntry)) (n0 : String)
    (h0 : alookup es n0 = some (makeV7 ())) (ops : List FsOp) :
    ∃ e, alookup (runCount n0 { ReportV7 fl rnd with Entries := es } ops).1.Entries n0 =
        some e ∧
      e.writeGeneration = (runCount n0 { ReportV7 fl rnd with Entries := es } ops).2 := by
  have hinv0 : entryTraceInv n0 { ReportV7 fl rnd with Entries := es } 0 :=
    ⟨makeV7 (), h0, rfl, rfl, rfl, by norm_num [U64],
      by unfold hasV7Keys; exact ⟨by decide, by decide⟩⟩
  obtain ⟨e, he, hw, _⟩ :=
    runCount_inv fl n0 ops { ReportV7 fl rnd with Entries := es } 0 rfl hinv0
  exact ⟨e, he, by simpa using hw⟩

/-- C3 witness: a concrete trace of four operations — two accepted writes, one
rejected oversized write, one read — leaves the entry at write generation 2,
the number of successful writes. -/
theorem writeGeneration_counts_successes_witness :
    ∃ e, alookup (runCount ("e1") { ReportV7 0 [] with Entries := [("e1", makeV7 ())] }
        [FsOp.write ("/sys/kernel/config/tsm/report/e1/inblob") (strBytes ("a")),
         FsOp.write ("/sys/kernel/config/tsm/report/e1/inblob") (List.replicate 65 0),
         FsOp.read ("/sys/kernel/config/tsm/report/e1/outblob"),
         FsOp.write ("/sys/kernel/config/tsm/report/e1/inblob") (strBytes ("b"))]).1.Entries
        ("e1") = some e ∧
      e.writeGeneration = 2 :=
  writeGeneration_counts_successes 0 [] [("e1", makeV7 ())] ("e1") rfl
    [FsOp.write ("/sys/kernel/config/tsm/report/e1/inblob") (strBytes ("a")),
     FsOp.write ("/sys/kernel/config/tsm/report/e1/inblob") (List.replicate 65 0),
     FsOp.read ("/sys/kernel/config/tsm/report/e1/outblob"),
     FsOp.write ("/sys/kernel/config/tsm/report/e1/inblob") (strBytes ("b"))]

theorem alookup_single_self {α : Type} (k : String) (v : α) :
    alookup [(k, v)] k = some v := by
  unfold alookup
  rw [if_pos rfl]

theorem aset_single_self {α : Type} (k : String) (a v : α) :
    aset [(k, a)] k v = [(k, v)] := by
  unfold aset
  rw [if_pos rfl]

theorem findIdx_star_none (l : List Char) (h : ∀ c ∈ l, c ≠ '*') :
    List.findIdx? (fun c => c == '*') l = none := by
  rw [List.findIdx?_eq_none_iff]
  intro c hc
  simp [h c hc]

/-- With enough randomness available and a star-free pattern, `TempName`
returns the pattern itself (the pattern plus the never-assigned empty
`randString`). -/
theorem tempName_nostar (rnd : List Nat) (dir u : String)
    (h6 : randomPathSize ≤ rnd.length) (hnostar : ∀ c ∈ u.data, c ≠ '*') :
    TempName rnd dir u = u := by
  unfold TempName
  rw [if_neg (by omega)]
  unfold lastStarIdx
  rw [findIdx_star_none u.data.reverse
    (fun c hc => hnostar c (List.mem_reverse.mp hc))]
  exact str_append_empty u

/-- `path.Join` of the report subsystem path and a valid entry segment. -/
theorem goPathJoin_report_entry (u : String) (hu : validSeg u = true) :
    goPathJoin [subsystemPath, u] =
      ⟨"/sys/kernel/config/tsm/report/".data ++ u.data⟩ := by
  obtain ⟨h1, _, h3, h4, h5⟩ := validSeg_parts u hu
  unfold goPathJoin
  dsimp only
  rw [show List.filter (fun s => s != "") [subsystemPath, u] =
    subsystemPath :: List.filter (fun s => s != "") [u] from rfl]
  rw [List.filter_cons, if_pos (validSeg_ne_empty u hu)]
  rw [show List.filter (fun s => s != "") ([] : List String) = [] from rfl]
  rw [if_neg (by simp)]
  rw [show (subsystemPath :: [u]).map String.data = [subsystemPath.data, u.data] from rfl]
  rw [show joinSlash [subsystemPath.data, u.data] =
    "/sys/kernel/config/tsm/report/".data ++ u.data from rfl]
  exact congrArg String.mk (goCleanL_report_seg u.data h1 h3 h4 h5)

/-- `MkdirTemp` on the fresh V7 subsystem with a valid pattern: installs the
entry under the pattern name and returns the joined path. -/
theorem mkdirTemp_v7_fresh (fl : Nat) (rnd : List Nat) (u : String) (hu : validSeg u = true)
    (h6 : randomPathSize ≤ rnd.length) :
    ReportSubsystem.MkdirTemp (ReportV7 fl rnd) subsystemPath u =
      (.ok ⟨"/sys/kernel/config/tsm/report/".data ++ u.data⟩,
       { ReportV7 fl (rnd.drop randomPathSize) with Entries := [(u, makeV7 ())] }) := by
  obtain ⟨_, hstar, _, _, _⟩ := validSeg_parts u hu
  unfold ReportSubsystem.MkdirTemp
  rw [show parseTsmPath subsystemPath = .ok ⟨"report", "", ""⟩ from by decide]
  dsimp only
  rw [if_neg (by decide)]
  rw [show (ReportV7 fl rnd).Random = rnd from rfl]
  rw [tempName_nostar rnd subsystemPath u h6 hstar]
  rw [show alookup (ReportV7 fl rnd).Entries u = none from rfl]
  rw [goPathJoin_report_entry u hu]
  rfl

theorem validSeg_ne (a : String) (ha : validSeg a = true) : a ≠ "" := by
  obtain ⟨_, _, h3, _, _⟩ := validSeg_parts a ha
  intro h
  exact h3 (by rw [h])

/-- `ReadFile` on a one-entry V7 subsystem when the fast path answers with a
successful value. -/
theorem readFile_single_fast (fl : Nat) (rnd : List Nat) (u a : String) (e : ReportEntry)
    (v : List Nat) (hu : validSeg u = true) (ha : validSeg a = true)
    (hv : e.readCached a = .ok v) :
    ReportSubsystem.ReadFile { ReportV7 fl rnd with Entries := [(u, e)] }
      ⟨"/sys/kernel/config/tsm/report/".data ++ u.data ++ '/' :: a.data⟩ =
      (.ok v, { ReportV7 fl rnd with Entries := [(u, e)] }) := by
  unfold ReportSubsystem.ReadFile
  rw [parse_report_attr u a hu ha]
  dsimp only
  rw [if_neg (validSeg_ne a ha)]
  rw [alookup_single_self u e]
  dsimp only
  rw [hv]
  rw [if_pos (by simp [fastReturnOk])]

/-- `ReadFile` on a one-entry V7 subsystem when the fast path signals
`EWOULDBLOCK`, the cache slot is empty, and the V7 policy computes `b`: the
slow path stores and returns `b`. -/
theorem readFile_single_slow (fl : Nat) (rnd : List Nat) (u a : String) (e : ReportEntry)
    (b : List Nat) (hu : validSeg u = true) (ha : validSeg a = true)
    (hwb : e.readCached a = .error .eWOULDBLOCK)
    (hro : alookup e.roAttrs a = none)
    (hra : readV7 fl { e with roAttrs := aset e.roAttrs a [] } a = .ok b) :
    ReportSubsystem.ReadFile { ReportV7 fl rnd with Entries := [(u, e)] }
      ⟨"/sys/kernel/config/tsm/report/".data ++ u.data ++ '/' :: a.data⟩ =
      (.ok b, { ReportV7 fl rnd with Entries := [(u, { e with roAttrs := aset (aset e.roAttrs a []) a b })] }) := by
  unfold ReportSubsystem.ReadFile
  rw [parse_report_attr u a hu ha]
  dsimp only
  rw [if_neg (validSeg_ne a ha)]
  rw [alookup_single_self u e]
  dsimp only
  rw [hwb]
  rw [if_neg (by simp [fastReturnOk])]
  rw [hro]
  unfold ReportSubsystem.readSlow
  dsimp only
  rw [show (ReportV7 fl rnd).ReadAttr = readV7 fl from rfl]
  rw [hra]
  dsimp only
  rw [aset_single_self u e]

/-- `WriteFile` on a one-entry V7 subsystem when validation accepts and the
generation can advance: the mapped attribute is updated. -/
theorem writeFile_single (fl : Nat) (rnd : List Nat) (u a : String) (e : ReportEntry)
    (c : List Nat) (a2 : ReportAttributeState)
    (hu : validSeg u = true) (ha : validSeg a = true)
    (hd : e.destroyed = false)
    (hchk : checkV7 fl e a c = none)
    (hbusy : e.writeGeneration ≠ (e.readGeneration + (U64 - 1)) % U64)
    (hk : alookup e.inAttrs a = some a2) :
    ReportSubsystem.WriteFile { ReportV7 fl rnd with Entries := [(u, e)] }
      ⟨"/sys/kernel/config/tsm/report/".data ++ u.data ++ '/' :: a.data⟩ c =
      (.ok (), { ReportV7 fl rnd with Entries := [(u, { e with writeGeneration := (e.writeGeneration + 1) % U64, inAttrs := aset e.inAttrs a { a2 with value := c } })] }) := by
  unfold ReportSubsystem.WriteFile
  rw [parse_report_attr u a hu ha]
  dsimp only
  rw [if_neg (validSeg_ne a ha)]
  rw [alookup_single_self u e]
  dsimp only
  rw [if_neg (by rw [hd]; exact Bool.false_ne_true)]
  rw [show (ReportV7 fl rnd).CheckInAttr e a c = checkV7 fl e a c from rfl, hchk]
  unfold ReportEntry.tryAdvanceWriteGeneration
  rw [if_neg (by rw [hd]; exact Bool.false_ne_true), if_neg hbusy]
  dsimp only
  rw [hk]
  dsimp only
  rw [aset_single_self u e]

/-- `RemoveAll` on a one-entry V7 subsystem removes the entry. -/
theorem removeAll_single (fl : Nat) (rnd : List Nat) (u : String) (e : ReportEntry)
    (hu : validSeg u = true) :
    ReportSubsystem.RemoveAll { ReportV7 fl rnd with Entries := [(u, e)] }
      ⟨"/sys/kernel/config/tsm/report/".data ++ u.data⟩ =
      (.ok (), { ReportV7 fl rnd with Entries := [] }) := by
  unfold ReportSubsystem.RemoveAll
  rw [parse_report_entry u hu]
  dsimp only
  rw [if_neg (by
    simp only [ne_eq]
    push_neg
    exact ⟨trivial, validSeg_ne u hu, rfl⟩)]
  rw [alookup_single_self u e]
  dsimp only
  rw [show aremove [(u, e)] u = [] from by unfold aremove; rw [if_pos rfl]]

/-- C9: on a fresh `ReportV7 0` subsystem (no externally injected read
generation, privilege floor 0) with any session name that is a valid path
segment (as every `uuid.New().String()` is) and enough randomness for
`TempName`, the one-shot `Get` with inblob `"lessthan64bytesok"`, no
privilege and no auxblob succeeds: the outblob is
`"privlevel: 0\ninblob: "` followed by the lowercase hex encoding of the
input blob, the provider is `"fake"`, the final destruction leaves no entry,
and the combined error is nil. -/
theorem get_v7_end_to_end (u : String) (hu : validSeg u = true) (rnd : List Nat)
    (h6 : randomPathSize ≤ rnd.length) :
    Get faketsmOps (ReportV7 0 rnd) u
      { inBlob := strBytes ("lessthan64bytesok"), privilege := none, getAuxBlob := false } =
      (some { provider := strBytes ("fake"),
              outBlob := strBytes ("privlevel: 0\ninblob: ") ++
                hexEncode (strBytes ("lessthan64bytesok")),
              auxBlob := [] },
       none,
       { ReportV7 0 (rnd.drop randomPathSize) with Entries := [] }) := by
  have hgen : validSeg ("generation") = true := by decide
  have hout : validSeg ("outblob") = true := by decide
  have hprov : validSeg ("provider") = true := by decide
  have hinbl : validSeg ("inblob") = true := by decide
  unfold Get Create CreateOpenReport OpenReport.Get OpenReport.WriteOption OpenReport.ReadOption
    OpenReport.Destroy OpenReport.attributePath readUint64File
  dsimp only [faketsmOps, subsystemName]
  rw [mkdirTemp_v7_fresh 0 rnd u hu h6]
  dsimp only
  rw [parse_report_entry u hu]
  dsimp only
  rw [pathString_attr u ("generation") hu hgen]
  rw [readFile_single_fast 0 (rnd.drop randomPathSize) u ("generation") (makeV7 ())
    (strBytes ("0")) hu hgen (by decide)]
  dsimp only
  rw [show parseUintDec (strBytes ("0")) 64 = .ok 0 from by decide]
  dsimp only
  rw [pathString_attr u ("inblob") hu hinbl]
  rw [writeFile_single 0 (rnd.drop randomPathSize) u ("inblob") (makeV7 ())
    (strBytes ("lessthan64bytesok")) ⟨[], false⟩ hu hinbl rfl (by decide) (by decide) rfl]
  dsimp only
  rw [show ({ makeV7 () with writeGeneration := ((makeV7 ()).writeGeneration + 1) % U64, inAttrs := aset (makeV7 ()).inAttrs ("inblob") { value := strBytes ("lessthan64bytesok"), readWrite := (⟨[], false⟩ : ReportAttributeState).readWrite } } : ReportEntry) = ⟨false, 0, 1, [("privlevel", ⟨strBytes ("0"), false⟩), ("inblob", ⟨strBytes ("lessthan64bytesok"), false⟩)], []⟩ from by decide]
  rw [show ((0 : Nat) + 1) % U64 = 1 from by decide]
  rw [if_neg (show ¬ (false = true) from by decide)]
  dsimp only
  rw [pathString_attr u ("outblob") hu hout]
  rw [readFile_single_slow 0 (rnd.drop randomPathSize) u ("outblob")
    ⟨false, 0, 1, [("privlevel", ⟨strBytes ("0"), false⟩), ("inblob", ⟨strBytes ("lessthan64bytesok"), false⟩)], []⟩
    (strBytes ("privlevel: 0\ninblob: 6c6573737468616e363462797465736f6b"))
    hu hout (by decide) (by decide) (by decide)]
  dsimp only
  rw [show (aset (aset ([] : List (String × List Nat)) ("outblob") []) ("outblob") (strBytes ("privlevel: 0\ninblob: 6c6573737468616e363462797465736f6b"))) = [("outblob", strBytes ("privlevel: 0\ninblob: 6c6573737468616e363462797465736f6b"))] from by decide]
  rw [pathString_attr u ("generation") hu hgen]
  rw [readFile_single_fast 0 (rnd.drop randomPathSize) u ("generation")
    ⟨false, 0, 1, [("privlevel", ⟨strBytes ("0"), false⟩), ("inblob", ⟨strBytes ("lessthan64bytesok"), false⟩)], [("outblob", strBytes ("privlevel: 0\ninblob: 6c6573737468616e363462797465736f6b"))]⟩
    (strBytes ("1")) hu hgen (by decide)]
  dsimp only
  rw [show parseUintDec (strBytes ("1")) 64 = .ok 1 from by decide]
  dsimp only
  rw [if_neg (by simp : ¬ (1 : Nat) ≠ 1)]
  dsimp only
  rw [pathString_attr u ("provider") hu hprov]
  rw [readFile_single_slow 0 (rnd.drop randomPathSize) u ("provider")
    ⟨false, 0, 1, [("privlevel", ⟨strBytes ("0"), false⟩), ("inblob", ⟨strBytes ("lessthan64bytesok"), false⟩)], [("outblob", strBytes ("privlevel: 0\ninblob: 6c6573737468616e363462797465736f6b"))]⟩
    (strBytes ("fake")) hu hprov (by decide) (by decide) (by decide)]
  dsimp only
  rw [show (aset (aset ([("outblob", strBytes ("privlevel: 0\ninblob: 6c6573737468616e363462797465736f6b"))]) ("provider") []) ("provider") (strBytes ("fake"))) = [("outblob", strBytes ("privlevel: 0\ninblob: 6c6573737468616e363462797465736f6b")), ("provider", strBytes ("fake"))] from by decide]
  rw [readFile_single_fast 0 (rnd.drop randomPathSize) u ("generation")
    ⟨false, 0, 1, [("privlevel", ⟨strBytes ("0"), false⟩), ("inblob", ⟨strBytes ("lessthan64bytesok"), false⟩)], [("outblob", strBytes ("privlevel: 0\ninblob: 6c6573737468616e363462797465736f6b")), ("provider", strBytes ("fake"))]⟩
    (strBytes ("1")) hu hgen (by decide)]
  dsimp only
  rw [show parseUintDec (strBytes ("1")) 64 = .ok 1 from by decide]
  dsimp only
  rw [if_neg (by simp : ¬ (1 : Nat) ≠ 1)]
  dsimp only
  rw [pathString_entry u hu]
  rw [removeAll_single 0 (rnd.drop randomPathSize) u
    ⟨false, 0, 1, [("privlevel", ⟨strBytes ("0"), false⟩), ("inblob", ⟨strBytes ("lessthan64bytesok"), false⟩)], [("outblob", strBytes ("privlevel: 0\ninblob: 6c6573737468616e363462797465736f6b")), ("provider", strBytes ("fake"))]⟩
    hu]
  dsimp only [combineErr]
  rfl

/-- C9 witness: the end-to-end theorem at a concrete 36-character uuid name
and a concrete randomness stream. -/
theorem get_v7_end_to_end_witness :
    Get faketsmOps (ReportV7 0 [9, 8, 7, 6, 5, 4, 3, 2, 1])
      ("8400b0e8-41ba-4b5a-a492-afa9c80ef96c")
      { inBlob := strBytes ("lessthan64bytesok"), privilege := none, getAuxBlob := false } =
      (some { provider := strBytes ("fake"),
              outBlob := strBytes ("privlevel: 0\ninblob: ") ++
                hexEncode (strBytes ("lessthan64bytesok")),
              auxBlob := [] },
       none,
       { ReportV7 0 ([9, 8, 7, 6, 5, 4, 3, 2, 1].drop randomPathSize) with Entries := [] }) :=
  get_v7_end_to_end ("8400b0e8-41ba-4b5a-a492-afa9c80ef96c") (by decide)
    [9, 8, 7, 6, 5, 4, 3, 2, 1] (by decide)

end ConfigfsTsm
